import Mathlib

/-! fluxcdbot: webhook credential lifecycle and callback URL composition

A shallow embedding of `http.go` (the handlers `handleStart`, `handleRotate`,
`handleWebhook` and the URL helpers `singleJoiningSlash`, `joinURLPath`,
`escapeTelegam`, `generateURL`) together with the parts of the Go standard
library and of the third-party packages that these functions call.

Conventions.

* A Go `string` is a sequence of bytes: `GoString = List Byte`, `Byte = Fin 256`.
  Literals of the source are written `str "..."` (all of them are ASCII).
* `int64` values are integers; where the source relies on wrap-around the
  reduction modulo `2^64` is written out.
* Library calls whose result is not determined by the program (the minted UUID,
  the I/O outcome of a store write, the answer of the Telegram API, the JSON
  decoder, `URL.String`) are explicit parameters of the handlers.
* Every handler returns the resulting store together with the trace of the
  externally visible calls it made, in order.
-/

namespace Fluxcdbot

/-! ## Byte strings -/

abbrev Byte := Fin 256

abbrev GoString := List Byte

/-- The byte of an ASCII character. -/
def byteOf (c : Char) : Byte := Fin.ofNat c.toNat

/-- The Go string literal with the given (ASCII) text. -/
def str (s : String) : GoString := s.toList.map byteOf

/-- Go `strings.HasSuffix`. -/
def HasSuffix (s suffix : GoString) : Bool := suffix.isSuffixOf s

/-- Go `strings.HasPrefix`. -/
def hasPrefixStr (s pre : GoString) : Bool := pre.isPrefixOf s

/-- The scanning loop of Go `strings.Replace` with `n < 0` for a non-empty
`old`: occurrences are found left to right and do not overlap. The counter is
the number of bytes of the current occurrence that are still to be skipped. -/
def replaceFrom (old new : GoString) : Nat → GoString → GoString
  | _, [] => []
  | skip + 1, _ :: tl => replaceFrom old new skip tl
  | 0, c :: tl =>
    if old.isPrefixOf (c :: tl) then new ++ replaceFrom old new (old.length - 1) tl
    else c :: replaceFrom old new 0 tl

/-- Go `strings.ReplaceAll(s, old, new)`, for a non-empty `old` (both call
sites of the program pass a one-byte `old`). -/
def ReplaceAll (s old new : GoString) : GoString :=
  if old = new then s else replaceFrom old new 0 s

/-! ## `net/url`: the path encoding used by `EscapedPath` -/

/-- Go `url.Userinfo`. -/
structure Userinfo where
  username : GoString
  password : GoString
  passwordSet : Bool

/-- Go `url.URL`. -/
structure URL where
  Scheme : GoString
  Opaque : GoString
  User : Option Userinfo
  Host : GoString
  Path : GoString
  RawPath : GoString
  OmitHost : Bool
  ForceQuery : Bool
  RawQuery : GoString
  Fragment : GoString
  RawFragment : GoString

/-- Go `url.ishex`. -/
def ishex (c : Byte) : Bool :=
  (48 ≤ c.val && c.val ≤ 57) || (97 ≤ c.val && c.val ≤ 102) || (65 ≤ c.val && c.val ≤ 70)

/-- Go `url.unhex`. -/
def unhex (c : Byte) : Nat :=
  if 48 ≤ c.val ∧ c.val ≤ 57 then c.val - 48
  else if 97 ≤ c.val ∧ c.val ≤ 102 then c.val - 97 + 10
  else if 65 ≤ c.val ∧ c.val ≤ 70 then c.val - 65 + 10
  else 0

/-- Go `url.upperhex[i]`, the table being `"0123456789ABCDEF"`. -/
def upperhex (i : Nat) : Byte := (str "0123456789ABCDEF").getD i 0

/-- Go `url.shouldEscape(c, encodePath)`: alphanumerics, the marks `-_.~` and
the reserved characters `$&+,/:;=@` stay as they are, everything else (also
`?`) is escaped. -/
def shouldEscape (c : Byte) : Bool :=
  if (97 ≤ c.val && c.val ≤ 122) || (65 ≤ c.val && c.val ≤ 90) || (48 ≤ c.val && c.val ≤ 57) then
    false
  else if c = 45 || c = 95 || c = 46 || c = 126 then
    false
  else if c = 36 || c = 38 || c = 43 || c = 44 || c = 47 || c = 58 || c = 59 || c = 61
      || c = 63 || c = 64 then
    c = 63
  else
    true

/-- The bytes that `url.escape` writes for one byte in mode `encodePath`. -/
def escapeByte (c : Byte) : GoString :=
  if shouldEscape c then [37, upperhex (c.val / 16), upperhex (c.val % 16)] else [c]

/-- Go `url.escape(s, encodePath)`. -/
def escape (s : GoString) : GoString :=
  let hexCount := s.countP shouldEscape
  if hexCount = 0 then s else s.flatMap escapeByte

/-- Go `url.unescape(s, encodePath)`; `none` is the `EscapeError`. A `%` must be
followed by two hexadecimal digits and stands for the byte they denote; every
other byte (also `+`) stands for itself. -/
def unescape : GoString → Option GoString
  | [] => some []
  | c :: tl =>
    if c = 37 then
      match tl with
      | h :: l :: rest =>
        if ishex h && ishex l then
          (unescape rest).map (fun t => Fin.ofNat (unhex h * 16 + unhex l) :: t)
        else none
      | _ => none
    else (unescape tl).map (fun t => c :: t)

/-- Go `url.validEncoded(s, encodePath)`. -/
def validEncoded (s : GoString) : Bool :=
  s.all fun c =>
    if c = 33 || c = 36 || c = 38 || c = 39 || c = 40 || c = 41 || c = 42 || c = 43 || c = 44
        || c = 59 || c = 61 || c = 58 || c = 64 then true
    else if c = 91 || c = 93 then true
    else if c = 37 then true
    else !shouldEscape c

/-- Go `(*URL).EscapedPath`. -/
def EscapedPath (u : URL) : GoString :=
  if u.RawPath ≠ [] ∧ validEncoded u.RawPath = true ∧ unescape u.RawPath = some u.Path then
    u.RawPath
  else if u.Path = str "*" then str "*"
  else escape u.Path

/-! ## `http.go`: URL composition -/

def webhookEndpoint : GoString := str "/api/v1/webhook"

def singleJoiningSlash (a b : GoString) : GoString :=
  let aslash := HasSuffix a (str "/")
  let bslash := hasPrefixStr b (str "/")
  if aslash && bslash then a ++ b.drop 1
  else if !aslash && !bslash then a ++ str "/" ++ b
  else a ++ b

def joinURLPath (a : URL) (b : GoString) : GoString × GoString :=
  if a.RawPath = [] ∧ b = [] then (singleJoiningSlash a.Path b, [])
  else
    let apath := EscapedPath a
    let aslash := HasSuffix apath (str "/")
    let bslash := hasPrefixStr b (str "/")
    if aslash && bslash then (a.Path ++ b.drop 1, apath ++ b.drop 1)
    else if !aslash && !bslash then (a.Path ++ str "/" ++ b, apath ++ str "/" ++ b)
    else (a.Path ++ b, apath ++ b)

def escapeTelegam (u : GoString) : GoString :=
  ReplaceAll (ReplaceAll u (str ".") (str "\\.")) (str "-") (str "\\-")

/-- The local `u` of `generateURL` right before `u.String()`: a copy of the
base URL whose `Path` and `RawPath` are the two results of `joinURLPath`. -/
def generateURLValue (baseURL : URL) (path : GoString) : URL :=
  { baseURL with Path := (joinURLPath baseURL path).1, RawPath := (joinURLPath baseURL path).2 }

/-- The function `generateURL`; `urlString` is Go `(*URL).String`. -/
def generateURL (urlString : URL → GoString) (baseURL : URL) (path : GoString) : GoString :=
  urlString (generateURLValue baseURL path)

/-! ## `strconv`: decimal conversion of `int64` -/

deriving instance DecidableEq for Except

/-- The two kinds of `strconv.NumError`. -/
inductive NumError where
  | ErrSyntax
  | ErrRange
  deriving DecidableEq, Repr

def maxUint64 : Nat := 2 ^ 64 - 1

/-- The digit loop of Go `strconv.ParseUint(s, 10, 64)` with accumulator `n`.
The result is the pair `(value, err)` that `ParseUint` returns. A letter has a
digit value of at least ten, so in base ten every byte that is not a decimal
digit is a syntax error. -/
def parseUintLoop : GoString → Nat → Nat × Option NumError
  | [], n => (n, none)
  | c :: tl, n =>
    if 48 ≤ c.val ∧ c.val ≤ 57 then
      let d := c.val - 48
      if n ≥ maxUint64 / 10 + 1 then (maxUint64, some .ErrRange)
      else
        let n10 := n * 10 % 2 ^ 64
        let n1 := (n10 + d) % 2 ^ 64
        if n1 < n10 ∨ n1 > maxUint64 then (maxUint64, some .ErrRange)
        else parseUintLoop tl n1
    else (0, some .ErrSyntax)

/-- Go `strconv.ParseUint(s, 10, 64)`. -/
def ParseUint (s : GoString) : Nat × Option NumError :=
  if s = [] then (0, some .ErrSyntax) else parseUintLoop s 0

/-- The conversion `int64(x)` of Go: reduction into `[-2^63, 2^63)`. -/
def toInt64 (x : Int) : Int := (x + 2 ^ 63) % 2 ^ 64 - 2 ^ 63

/-- Go `strconv.ParseInt(s, 10, 64)`. -/
def ParseInt (s : GoString) : Except NumError Int :=
  if s = [] then .error .ErrSyntax
  else
    let neg := s.head? = some 45
    let s1 := if s.head? = some 43 then s.drop 1 else if s.head? = some 45 then s.drop 1 else s
    match ParseUint s1 with
    | (_, some .ErrSyntax) => .error .ErrSyntax
    | (un, _) =>
      let cutoff : Nat := 2 ^ 63
      if ¬ neg ∧ un ≥ cutoff then .error .ErrRange
      else if neg ∧ un > cutoff then .error .ErrRange
      else
        let n := toInt64 un
        .ok (if neg then toInt64 (-n) else n)

/-- The decimal digits of `u` in front of `acc`, most significant first (the
output of Go `strconv.formatBits` in base ten). A `uint64` has at most twenty
digits, which is the fuel `FormatInt` passes. -/
def formatBits : Nat → Nat → GoString → GoString
  | 0, _, acc => acc
  | fuel + 1, u, acc =>
    if u / 10 = 0 then Fin.ofNat (48 + u % 10) :: acc
    else formatBits fuel (u / 10) (Fin.ofNat (48 + u % 10) :: acc)

/-- Go `strconv.FormatInt(i, 10)` for an `int64` value `i`: the magnitude is
`-uint64(i)` for a negative `i`. -/
def FormatInt (i : Int) : GoString :=
  if i < 0 then 45 :: formatBits 20 ((-i).toNat % 2 ^ 64) []
  else formatBits 20 (i.toNat % 2 ^ 64) []

/-! ## `path`: `Clean` and `Join` -/

/-- The inner loop of the `..` case of Go `path.Clean`, after `out.w--`. The
argument is the buffer `buf[0..w]` reversed (its head is `buf[w]`); the result
is the reversed buffer `buf[0..w)` at the end of the loop. -/
def cleanBacktrack (dotdot : Nat) : GoString → GoString
  | [] => []
  | c :: rest => if rest.length > dotdot ∧ c ≠ 47 then cleanBacktrack dotdot rest else rest

/-- The main loop of Go `path.Clean`: `rest` is the unread part `path[r:]`,
`out` the bytes written so far. Every round consumes at least one byte, so the
length of the path is enough fuel. -/
def cleanLoop : Nat → Bool → GoString → GoString → Nat → GoString
  | 0, _, _, out, _ => out
  | _ + 1, _, [], out, _ => out
  | fuel + 1, rooted, c :: tl, out, dotdot =>
    if c = 47 then cleanLoop fuel rooted tl out dotdot
    else if c = 46 ∧ (tl = [] ∨ tl.head? = some 47) then cleanLoop fuel rooted tl out dotdot
    else if c = 46 ∧ tl.head? = some 46 ∧ (tl.drop 1 = [] ∨ (tl.drop 1).head? = some 47) then
      if out.length > dotdot then
        cleanLoop fuel rooted (tl.drop 1) (cleanBacktrack dotdot out.reverse).reverse dotdot
      else if rooted = false then
        let out2 := (if out.length > 0 then out ++ [47] else out) ++ [46, 46]
        cleanLoop fuel rooted (tl.drop 1) out2 out2.length
      else cleanLoop fuel rooted (tl.drop 1) out dotdot
    else
      let out1 :=
        if (rooted = true ∧ out.length ≠ 1) ∨ (rooted = false ∧ out.length ≠ 0) then out ++ [47]
        else out
      cleanLoop fuel rooted ((c :: tl).dropWhile (fun x => x ≠ 47))
        (out1 ++ (c :: tl).takeWhile (fun x => x ≠ 47)) dotdot

/-- Go `path.Clean`. -/
def Clean (path : GoString) : GoString :=
  if path = [] then str "."
  else
    let rooted : Bool := path.head? = some 47
    let out :=
      if rooted then cleanLoop path.length true (path.drop 1) [47] 1
      else cleanLoop path.length false path [] 0
    if out = [] then str "." else out

/-- Go `path.Join`: the elements from the first non-empty one on are joined
with `/` and the result is cleaned; without a non-empty element the result is
the empty string. -/
def Join (elem : List GoString) : GoString :=
  match elem.dropWhile (fun e => e = []) with
  | [] => []
  | e :: es => Clean ((str "/").intercalate (e :: es))

/-! ## `diskv`: the credential store -/

/-- What the store holds under a key: a value, or a file that exists and cannot
be read (for which `Read` returns an error). -/
inductive Entry where
  | value (s : GoString)
  | unreadable
  deriving DecidableEq

/-- The state of the `diskv` store (no cache, no index, flat layout: the
configuration of `Main`). -/
structure Diskv where
  files : GoString → Option Entry

/-- Go `(*Diskv).Has`: the file of the key exists. -/
def Diskv.Has (d : Diskv) (key : GoString) : Bool := (d.files key).isSome

/-- Go `(*Diskv).ReadString`: the value under the key; the error of `Read` is
dropped and the empty string returned in its place. -/
def Diskv.ReadString (d : Diskv) (key : GoString) : GoString :=
  match d.files key with
  | some (.value s) => s
  | _ => []

/-- Go `(*Diskv).WriteString`. The key must be non-empty and free of the path
separator; `ioErr` is the error of the file system, if it reports one. The
value is written to a temporary file that is renamed over the key's file, so a
failed write leaves the store as it was. -/
def Diskv.WriteString (d : Diskv) (ioErr : Option GoString) (key val : GoString) :
    Diskv × Option GoString :=
  if key = [] then (d, some (str "empty key"))
  else if (47 : Byte) ∈ key then (d, some (str "bad key"))
  else
    match ioErr with
    | some e => (d, some e)
    | none => ({ files := fun k => if k = key then some (.value val) else d.files k }, none)

/-! ## `telebot`, `net/http`, `httprouter`, `events` -/

/-- The error of `(*telebot.Bot).Send`: a `*telebot.APIError` with its code
and description, or any other error; `text` is the result of `Error()`. -/
inductive SendError where
  | api (code : Int) (description : GoString) (text : GoString)
  | other (text : GoString)
  deriving DecidableEq

def SendError.Error : SendError → GoString
  | .api _ _ text => text
  | .other text => text

/-- The calls of a handler that are visible outside of it, as they occur. -/
inductive Effect where
  /-- The call `uuid.NewString()` and the string it returned. -/
  | mint (u : GoString)
  /-- The call `d.WriteString(key, val)` and its error. -/
  | write (key val : GoString) (err : Option GoString)
  /-- The call `b.Send(chat, text)`: a message submitted to the transport. -/
  | send (chat : Int) (text : GoString)
  /-- The call `json.NewDecoder(r.Body).Decode`, which reads the body. -/
  | decode (body : GoString)
  /-- The call `http.Error(w, msg, code)`. -/
  | httpError (msg : GoString) (code : Int)
  /-- A line of the log. -/
  | log (level msg : GoString) (err : Option GoString)
  deriving DecidableEq

/-- The messages submitted to the transport in a trace. -/
def sends (t : List Effect) : List (Int × GoString) :=
  t.filterMap fun e => match e with
    | .send chat text => some (chat, text)
    | _ => none

/-- The store writes attempted in a trace. -/
def writes (t : List Effect) : List (GoString × GoString) :=
  t.filterMap fun e => match e with
    | .write key val _ => some (key, val)
    | _ => none

/-- The answers of the outside world during one run of a bot command handler. -/
structure World where
  /-- The result of `uuid.NewString()`. -/
  uuid : GoString
  /-- The error of the file system on `WriteString`, if any. -/
  writeErr : Option GoString
  /-- The error of `b.Send`, if any. -/
  sendErr : Option SendError

/-- Go `telebot.Message`, of which the handlers read `m.Chat.ID`. -/
structure Message where
  chatID : Int

/-- The result of a bot command handler. -/
structure Outcome where
  store : Diskv
  trace : List Effect

/-- Go `events.Event`, of which the handler reads three fields. -/
structure Event where
  Severity : GoString
  ReportingInstance : GoString
  Message : GoString

/-- An HTTP request as `handleWebhook` sees it: the parameters bound by the
router and the body. -/
structure Request where
  params : List (GoString × GoString)
  body : GoString

/-- Go `httprouter.Params.ByName`: the value of the first parameter of that
name, the empty string without one. -/
def ByName (ps : List (GoString × GoString)) (name : GoString) : GoString :=
  match ps with
  | [] => []
  | (k, v) :: rest => if k = name then v else ByName rest name

/-- The request the router builds for `POST /api/v1/webhook/:chatID/:uuid`. -/
def webhookRequest (chatID uuid body : GoString) : Request :=
  { params := [(str "chatID", chatID), (str "uuid", uuid)], body := body }

/-- What the client receives: a status with a body, or nothing when the
handler panicked. -/
inductive Reply where
  | written (status : Int) (body : GoString)
  | panicked
  deriving DecidableEq

/-- The reply after Go `http.Error(w, msg, code)` on a fresh response:
`WriteHeader` panics on a code outside of `100..999`, the body is the message
and a newline. -/
def httpErrorReply (msg : GoString) (code : Int) : Reply :=
  if code < 100 ∨ code > 999 then .panicked else .written code (msg ++ str "\n")

/-- The result of the webhook handler. -/
structure HttpOutcome where
  store : Diskv
  trace : List Effect
  reply : Reply

/-! ## `http.go`: the handlers -/

def handleStart (urlString : URL → GoString) (d : Diskv) (w : World) (baseURL : URL)
    (m : Message) : Outcome :=
  let chatID := FormatInt m.chatID
  if d.Has chatID then ⟨d, []⟩
  else
    let u := w.uuid
    match d.WriteString w.writeErr chatID u with
    | (d1, some err) =>
      ⟨d1, [.mint u, .write chatID u (some err),
        .log (str "error") (str "failed to write to database") (some err)]⟩
    | (d1, none) =>
      let wu := generateURL urlString baseURL (Join [webhookEndpoint, chatID, u])
      let text := str "Your webhook URL is:\n[" ++ escapeTelegam wu ++ str "](" ++ wu ++ str ")"
      match w.sendErr with
      | some err =>
        ⟨d1, [.mint u, .write chatID u none, .send m.chatID text,
          .log (str "error") (str "failed to send message") (some err.Error)]⟩
      | none => ⟨d1, [.mint u, .write chatID u none, .send m.chatID text]⟩

def handleRotate (urlString : URL → GoString) (d : Diskv) (w : World) (baseURL : URL)
    (m : Message) : Outcome :=
  let chatID := FormatInt m.chatID
  if ¬ d.Has chatID then
    let text :=
      escapeTelegam (str "This chat is not yet initialized. Send /start to start receiving updates.")
    match w.sendErr with
    | some err =>
      ⟨d, [.log (str "info") (str "this chat is not yet initialized") none, .send m.chatID text,
        .log (str "error") (str "failed to send message") (some err.Error)]⟩
    | none =>
      ⟨d, [.log (str "info") (str "this chat is not yet initialized") none, .send m.chatID text]⟩
  else
    let u := w.uuid
    match d.WriteString w.writeErr chatID u with
    | (d1, some err) =>
      ⟨d1, [.mint u, .write chatID u (some err),
        .log (str "error") (str "failed to write to database") (some err)]⟩
    | (d1, none) =>
      let wu := generateURL urlString baseURL (Join [webhookEndpoint, chatID, u])
      let text :=
        str "Your new webhook URL is:\n[" ++ escapeTelegam wu ++ str "](" ++ wu ++ str ")"
      match w.sendErr with
      | some err =>
        ⟨d1, [.mint u, .write chatID u none, .send m.chatID text,
          .log (str "error") (str "failed to send message") (some err.Error)]⟩
      | none => ⟨d1, [.mint u, .write chatID u none, .send m.chatID text]⟩

/-- The text `handleWebhook` formats from an event before escaping it. -/
def eventText (e : Event) : GoString :=
  str "Severity: *" ++ e.Severity ++ str "*\nInstance: *" ++ e.ReportingInstance
    ++ str "*\nMessage:\n```\n" ++ e.Message ++ str "\n```"

/-- The handler `handleWebhook`; `decode` is the JSON decoder of `events.Event`
and `sendErr` the error of `b.Send`, if any. Without a call of `http.Error`
the server answers 200 with an empty body. -/
def handleWebhook (decode : GoString → Except GoString Event) (sendErr : Option SendError)
    (d : Diskv) (r : Request) : HttpOutcome :=
  let chatID := ByName r.params (str "chatID")
  match ParseInt chatID with
  | .error _ => ⟨d, [.httpError [] 400], httpErrorReply [] 400⟩
  | .ok cid =>
    if d.ReadString chatID ≠ ByName r.params (str "uuid") then
      ⟨d, [.httpError [] 403], httpErrorReply [] 403⟩
    else
      match decode r.body with
      | .error err => ⟨d, [.decode r.body, .httpError err 400], httpErrorReply err 400⟩
      | .ok e =>
        let text := escapeTelegam (eventText e)
        match sendErr with
        | some (.api code description _) =>
          ⟨d, [.decode r.body, .send cid text, .httpError description code],
            httpErrorReply description code⟩
        | some (.other errText) =>
          ⟨d, [.decode r.body, .send cid text, .httpError errText 500], httpErrorReply errText 500⟩
        | none => ⟨d, [.decode r.body, .send cid text], .written 200 []⟩

/-! ## `main.go` and `httprouter`: the route of the webhook handler -/

/-- The pattern under which `Main` registers `handleWebhook`, for the method
POST: `path.Join(webhookEndpoint, "/:chatID/:uuid")`. -/
def webhookRoute : GoString := Join [webhookEndpoint, str "/:chatID/:uuid"]

/-- The lookup of `httprouter` (`node.getValue`) in the tree that `Main` builds
from its one route. The tree is a chain of four nodes: the static node
`/api/v1/webhook/`, the parameter node `:chatID`, the static node `/` and the
parameter node `:uuid`, which alone carries a handler. A static node is
passed only by a path that is strictly longer than it and starts with it; a
parameter node takes the bytes up to the next `/` or the end of the path as
the value. The result is the list of parameters the handler is called with,
and `none` when the router answers the request itself (not found, or a
redirect) without calling the handler. -/
def lookupWebhook (path : GoString) : Option (List (GoString × GoString)) :=
  let root := str "/api/v1/webhook/"
  if path.length > root.length ∧ path.take root.length = root then
    let path1 := path.drop root.length
    let chatID := path1.takeWhile (fun x => x ≠ 47)
    let path2 := path1.dropWhile (fun x => x ≠ 47)
    if path2 = [] then none
    else if path2.length > 1 then
      let path3 := path2.drop 1
      let uuid := path3.takeWhile (fun x => x ≠ 47)
      if path3.dropWhile (fun x => x ≠ 47) = [] then
        some [(str "chatID", chatID), (str "uuid", uuid)]
      else none
    else none
  else none

/-- The public HTTP server of `Main` on one request: the router calls
`handleWebhook` for a POST whose path matches the route, with the parameters
it bound; `none` stands for every request the router answers itself. -/
def ServeHTTP (decode : GoString → Except GoString Event) (sendErr : Option SendError)
    (d : Diskv) (method path body : GoString) : Option HttpOutcome :=
  if method = str "POST" then
    (lookupWebhook path).map fun ps => handleWebhook decode sendErr d ⟨ps, body⟩
  else none

/-! ## Predicates and functions used in the statements -/

/-- A decimal digit. -/
def isDigit (b : Byte) : Prop := 48 ≤ b.val ∧ b.val ≤ 57

instance (b : Byte) : Decidable (isDigit b) := by unfold isDigit; infer_instance

/-- A path element that `Clean` copies as it is: not empty, without `/` and
without `.`. -/
def plainSegment (s : GoString) : Prop := s ≠ [] ∧ (47 : Byte) ∉ s ∧ (46 : Byte) ∉ s

/-- Go `uuid.UUID.String` produces 36 bytes, lower-case hexadecimal digits
with `-` at the positions 8, 13, 18 and 23. -/
def isUUID (u : GoString) : Bool :=
  u.length == 36 && u.all (fun b => b == 45 || (48 ≤ b.val && b.val ≤ 57) || (97 ≤ b.val && b.val ≤ 102))
    && u.count 45 == 4 && u.getD 8 0 == 45 && u.getD 13 0 == 45 && u.getD 18 0 == 45
    && u.getD 23 0 == 45

/-- The string `u` with one backslash put in front of each `.` and each `-`:
the escaping as the specification words it. -/
def insertBackslashes (u : GoString) : GoString :=
  u.flatMap fun c => if c = 46 ∨ c = 45 then [92, c] else [c]

/-- Deletes every backslash that stands immediately before a `.` or a `-`. -/
def dropBackslashes : GoString → GoString
  | [] => []
  | [c] => [c]
  | c :: d :: tl =>
    if c = 92 ∧ (d = 46 ∨ d = 45) then d :: dropBackslashes tl
    else c :: dropBackslashes (d :: tl)

/-- The handler read the request body: it got past the recipient parse and the
credential check and called the decoder. -/
def bodyRead (t : List Effect) : Bool :=
  t.any fun e => match e with
    | .decode _ => true
    | _ => false

/-- The store after a successful write of `val` under `key`. -/
def Diskv.put (d : Diskv) (key val : GoString) : Diskv :=
  { files := fun k => if k = key then some (.value val) else d.files k }

/-! ## Decimal conversion: `ParseInt` inverts `FormatInt` -/

theorem digit_val (d : Nat) (hd : d ≤ 9) : (Fin.ofNat (48 + d) : Byte).val = 48 + d := by
  show (48 + d) % 256 = 48 + d
  omega

theorem formatBits_digits (fuel : Nat) : ∀ (u : Nat) (acc : GoString),
    (∀ b ∈ acc, isDigit b) → ∀ b ∈ formatBits fuel u acc, isDigit b := by
  induction fuel with
  | zero => intro u acc h b hb; exact h b (by simpa [formatBits] using hb)
  | succ f ih =>
    intro u acc h b hb
    have hd : isDigit (Fin.ofNat (48 + u % 10) : Byte) := by
      have := digit_val (u % 10) (by omega)
      constructor <;> omega
    have hacc : ∀ b ∈ (Fin.ofNat (48 + u % 10) : Byte) :: acc, isDigit b := by
      intro b hb
      rcases List.mem_cons.mp hb with h1 | h1
      · rw [h1]; exact hd
      · exact h b h1
    unfold formatBits at hb
    split at hb
    · exact hacc b hb
    · exact ih _ _ hacc b hb

theorem formatBits_ne_nil (fuel u : Nat) (acc : GoString) : formatBits (fuel + 1) u acc ≠ [] := by
  induction fuel generalizing u acc with
  | zero => unfold formatBits; split <;> simp [formatBits]
  | succ f ih =>
    unfold formatBits
    split
    · simp
    · exact ih _ _

theorem parseUintLoop_digit (d n : Nat) (tl : GoString) (hd : d ≤ 9)
    (hn : n * 10 + d < 2 ^ 64) :
    parseUintLoop ((Fin.ofNat (48 + d) : Byte) :: tl) n = parseUintLoop tl (n * 10 + d) := by
  have hv := digit_val d hd
  have h1 : n * 10 % 2 ^ 64 = n * 10 := Nat.mod_eq_of_lt (by omega)
  have h2 : (n * 10 + d) % 2 ^ 64 = n * 10 + d := Nat.mod_eq_of_lt hn
  have h3 : ¬ n ≥ maxUint64 / 10 + 1 := by
    simp only [maxUint64]; omega
  have h4 : ¬ (n * 10 + d < n * 10 ∨ n * 10 + d > maxUint64) := by
    simp only [maxUint64]; omega
  have h5 : 48 + d - 48 = d := by omega
  have h0 : 48 ≤ (Fin.ofNat (48 + d) : Byte).val ∧ (Fin.ofNat (48 + d) : Byte).val ≤ 57 := by
    omega
  rw [parseUintLoop, if_pos h0]
  simp only [hv, h5, h1, h2, if_neg h3, if_neg h4]

theorem parseUintLoop_formatBits (fuel : Nat) : ∀ (u : Nat) (acc : GoString),
    u < 10 ^ fuel → u < 2 ^ 64 →
    parseUintLoop (formatBits fuel u acc) 0 = parseUintLoop acc u := by
  induction fuel with
  | zero =>
    intro u acc h _
    have : u = 0 := by simpa using h
    simp [formatBits, this]
  | succ f ih =>
    intro u acc h h64
    unfold formatBits
    split
    · rename_i h0
      have hu : u % 10 = u := by omega
      rw [parseUintLoop_digit (u % 10) 0 acc (by omega) (by omega)]
      simp [hu]
    · have hlt : u / 10 < 10 ^ f := by
        rw [Nat.pow_succ] at h
        omega
      rw [ih (u / 10) _ hlt (by omega),
        parseUintLoop_digit (u % 10) (u / 10) acc (by omega) (by omega)]
      congr 1
      omega

theorem ParseUint_formatBits (u : Nat) (h : u < 2 ^ 64) :
    ParseUint (formatBits 20 u []) = (u, none) := by
  unfold ParseUint
  rw [if_neg (formatBits_ne_nil 19 u []), parseUintLoop_formatBits 20 u [] (by omega) h]
  rfl

theorem formatBits_head (u : Nat) :
    ∃ b tl, formatBits 20 u [] = b :: tl ∧ isDigit b := by
  have hne := formatBits_ne_nil 19 u []
  match hs : formatBits 20 u [] with
  | [] => exact absurd hs hne
  | b :: tl =>
    refine ⟨b, tl, rfl, ?_⟩
    exact formatBits_digits 20 u [] (by simp) b (by rw [hs]; simp)

theorem ParseInt_formatBits_neg (m : Nat) (h : m ≤ 2 ^ 63) :
    ParseInt (45 :: formatBits 20 m []) = .ok (-(m : Int)) := by
  have hP := ParseUint_formatBits m (by omega)
  unfold ParseInt
  simp only [List.head?_cons, List.drop_succ_cons, List.drop_zero]
  simp only [show ((some 45 : Option Byte) = some 43) = False by decide, if_false, if_true, hP]
  have h1 : ¬ (¬ True ∧ m ≥ 2 ^ 63) := by simp
  have h2 : ¬ (True ∧ m > 2 ^ 63) := by omega
  simp only [reduceCtorEq, if_false, h1, h2, if_true]
  refine congrArg Except.ok ?_
  simp only [toInt64]
  norm_num at h ⊢
  omega

theorem ParseInt_formatBits_nonneg (m : Nat) (h : m < 2 ^ 63) :
    ParseInt (formatBits 20 m []) = .ok (m : Int) := by
  have hP := ParseUint_formatBits m (by omega)
  obtain ⟨b, tl, hs, hb⟩ := formatBits_head m
  have h43 : (some b = some (43 : Byte)) = False := by
    simp only [Option.some.injEq, eq_iff_iff, iff_false]
    intro h; rw [h] at hb; exact absurd hb (by decide)
  have h45 : (some b = some (45 : Byte)) = False := by
    simp only [Option.some.injEq, eq_iff_iff, iff_false]
    intro h; rw [h] at hb; exact absurd hb (by decide)
  rw [hs] at hP ⊢
  unfold ParseInt
  simp only [List.head?_cons, h43, h45, if_false, hP]
  have h1 : ¬ (¬ False ∧ m ≥ 2 ^ 63) := by omega
  have h2 : ¬ (False ∧ m > 2 ^ 63) := by simp
  simp only [reduceCtorEq, if_false, h1, h2]
  refine congrArg Except.ok ?_
  simp only [toInt64]
  norm_num at h ⊢
  omega

/-- Parsing the decimal form of an `int64` gives the number back. -/
theorem ParseInt_FormatInt (c : Int) (hlo : -2 ^ 63 ≤ c) (hhi : c < 2 ^ 63) :
    ParseInt (FormatInt c) = .ok c := by
  by_cases hc : c < 0
  · obtain ⟨m, rfl⟩ : ∃ m : Nat, c = -(m : Int) := ⟨(-c).toNat, by omega⟩
    have hm : (-(-(m : Int))).toNat % 2 ^ 64 = m := by
      rw [neg_neg, Int.toNat_natCast]; exact Nat.mod_eq_of_lt (by omega)
    simp only [FormatInt, if_pos hc, hm]
    exact ParseInt_formatBits_neg m (by omega)
  · obtain ⟨m, rfl⟩ : ∃ m : Nat, c = (m : Int) := ⟨c.toNat, by omega⟩
    have hm : ((m : Int)).toNat % 2 ^ 64 = m := by
      rw [Int.toNat_natCast]; exact Nat.mod_eq_of_lt (by omega)
    simp only [FormatInt, if_neg hc, hm]
    exact ParseInt_formatBits_nonneg m (by omega)

theorem takeWhile_segment (s rest : GoString) (hs : (47 : Byte) ∉ s)
    (hr : rest = [] ∨ rest.head? = some 47) :
    (s ++ rest).takeWhile (fun x => x ≠ 47) = s ∧ (s ++ rest).dropWhile (fun x => x ≠ 47) = rest := by
  have hall : ∀ a ∈ s, (decide (a ≠ 47)) = true := by
    intro a ha
    simp only [decide_eq_true_eq]
    intro h; exact hs (h ▸ ha)
  rw [List.takeWhile_append_of_pos hall, List.dropWhile_append_of_pos hall]
  rcases hr with h | h
  · subst h; simp
  · match rest, h with
    | c :: tl, h =>
      simp only [List.head?_cons, Option.some.injEq] at h
      subst h
      simp

theorem cleanLoop_nil (fuel : Nat) (rooted : Bool) (out : GoString) (dd : Nat) :
    cleanLoop fuel rooted [] out dd = out := by
  cases fuel <;> rfl

theorem cleanLoop_slash (fuel : Nat) (rooted : Bool) (tl out : GoString) (dd : Nat) :
    cleanLoop (fuel + 1) rooted (47 :: tl) out dd = cleanLoop fuel rooted tl out dd := by
  rw [cleanLoop]; simp

theorem cleanLoop_segment (fuel : Nat) (s rest out : GoString) (dd : Nat) (hs : plainSegment s)
    (hr : rest = [] ∨ rest.head? = some 47) :
    cleanLoop (fuel + 1) true (s ++ rest) out dd
      = cleanLoop fuel true rest ((if out.length ≠ 1 then out ++ [47] else out) ++ s) dd := by
  obtain ⟨hne, h47, h46⟩ := hs
  match s, hne with
  | c :: tl, _ =>
    have hc47 : c ≠ 47 := fun h => h47 (by simp [h])
    have hc46 : c ≠ 46 := fun h => h46 (by simp [h])
    obtain ⟨ht, hd⟩ := takeWhile_segment (c :: tl) rest h47 hr
    rw [List.cons_append] at ht hd ⊢
    rw [cleanLoop]
    simp only [hc47, hc46, if_false, false_and, ht, hd]
    simp

theorem cleanLoop_segments (segs : List GoString) : ∀ (fuel : Nat) (out : GoString) (dd : Nat),
    (∀ s ∈ segs, plainSegment s) → out.length ≠ 1 → 2 * segs.length ≤ fuel →
    cleanLoop fuel true (segs.flatMap (fun s => 47 :: s)) out dd
      = out ++ segs.flatMap (fun s => 47 :: s) := by
  induction segs with
  | nil => intro fuel out dd _ _ _; simp [cleanLoop_nil]
  | cons s ss ih =>
    intro fuel out dd hs hout hf
    obtain ⟨f, rfl⟩ : ∃ f, fuel = f + 2 := ⟨fuel - 2, by simp at hf; omega⟩
    have hs1 : plainSegment s := hs s (by simp)
    have hr : ss.flatMap (fun s => (47 : Byte) :: s) = []
        ∨ (ss.flatMap (fun s => (47 : Byte) :: s)).head? = some 47 := by
      cases ss with
      | nil => left; rfl
      | cons a as => right; simp
    rw [List.flatMap_cons, List.cons_append, cleanLoop_slash, cleanLoop_segment _ _ _ _ _ hs1 hr,
      if_pos hout]
    rw [ih f _ dd (fun x hx => hs x (by simp [hx])) (by
      have := hs1.1
      have : 0 < s.length := List.length_pos.mpr this
      simp; omega) (by simp at hf; omega)]
    simp

/-- The form of a rooted path that `Clean` leaves as it is. -/
theorem Clean_rooted (s0 : GoString) (segs : List GoString) (h0 : plainSegment s0)
    (hs : ∀ s ∈ segs, plainSegment s) :
    Clean (47 :: (s0 ++ segs.flatMap (fun s => 47 :: s)))
      = 47 :: (s0 ++ segs.flatMap (fun s => 47 :: s)) := by
  have hr : segs.flatMap (fun s => (47 : Byte) :: s) = []
      ∨ (segs.flatMap (fun s => (47 : Byte) :: s)).head? = some 47 := by
    cases segs with
    | nil => left; rfl
    | cons a as => right; simp
  have hlen : 2 * segs.length ≤ (segs.flatMap (fun s => (47 : Byte) :: s)).length := by
    clear hr
    induction segs with
    | nil => simp
    | cons a as ih =>
      have h1 : 0 < a.length := List.length_pos.mpr (hs a (by simp)).1
      have h2 := ih (fun x hx => hs x (by simp [hx]))
      simp only [List.flatMap_cons, List.length_append, List.length_cons]
      omega
  unfold Clean
  simp only [reduceCtorEq, if_false, List.head?_cons, decide_True, if_true, List.drop_succ_cons,
    List.drop_zero, List.length_cons, List.length_append]
  rw [cleanLoop_segment _ _ _ _ _ h0 hr]
  simp only [List.length_singleton, ne_eq, not_true_eq_false, if_false]
  rw [cleanLoop_segments segs _ _ _ hs (by
    have : 0 < s0.length := List.length_pos.mpr h0.1
    simp only [List.length_append, List.length_cons, List.length_nil]; omega) (by omega)]
  simp

theorem FormatInt_bytes (c : Int) : ∀ b ∈ FormatInt c, b = 45 ∨ isDigit b := by
  intro b hb
  unfold FormatInt at hb
  split at hb
  · rcases List.mem_cons.mp hb with h | h
    · exact Or.inl h
    · exact Or.inr (formatBits_digits 20 _ [] (by simp) b h)
  · exact Or.inr (formatBits_digits 20 _ [] (by simp) b hb)

theorem FormatInt_ne_nil (c : Int) : FormatInt c ≠ [] := by
  unfold FormatInt
  split
  · simp
  · exact formatBits_ne_nil 19 _ []

theorem FormatInt_no_slash (c : Int) : (47 : Byte) ∉ FormatInt c := by
  intro h
  rcases FormatInt_bytes c 47 h with h1 | h1
  · exact absurd h1 (by decide)
  · exact absurd h1 (by decide)

theorem FormatInt_plain (c : Int) : plainSegment (FormatInt c) := by
  refine ⟨FormatInt_ne_nil c, FormatInt_no_slash c, ?_⟩
  intro h
  rcases FormatInt_bytes c 46 h with h1 | h1
  · exact absurd h1 (by decide)
  · exact absurd h1 (by decide)

theorem isUUID_plain (u : GoString) (h : isUUID u = true) : plainSegment u := by
  unfold isUUID at h
  simp only [Bool.and_eq_true, beq_iff_eq, List.all_eq_true, Bool.or_eq_true,
    decide_eq_true_eq] at h
  obtain ⟨⟨⟨⟨⟨⟨hlen, hall⟩, _⟩, _⟩, _⟩, _⟩, _⟩ := h
  refine ⟨?_, ?_, ?_⟩
  · intro h0; rw [h0] at hlen; simp at hlen
  · intro hm
    have := hall 47 hm
    revert this; decide
  · intro hm
    have := hall 46 hm
    revert this; decide

theorem Join_webhook (c u : GoString) (hc : plainSegment c) (hu : plainSegment u) :
    Join [webhookEndpoint, c, u] = str "/api/v1/webhook/" ++ c ++ str "/" ++ u := by
  have hseg : ∀ s ∈ [str "v1", str "webhook", c, u], plainSegment s := by
    intro s hs
    simp only [List.mem_cons, List.mem_singleton, List.not_mem_nil, or_false] at hs
    rcases hs with h | h | h | h
    · rw [h]; exact ⟨by decide, by decide, by decide⟩
    · rw [h]; exact ⟨by decide, by decide, by decide⟩
    · rw [h]; exact hc
    · rw [h]; exact hu
  have h0 : plainSegment (str "api") := ⟨by decide, by decide, by decide⟩
  have hC := Clean_rooted (str "api") [str "v1", str "webhook", c, u] h0 hseg
  have hE : (str "/").intercalate [webhookEndpoint, c, u]
      = 47 :: (str "api" ++ [str "v1", str "webhook", c, u].flatMap (fun s => 47 :: s)) := by
    simp [List.intercalate, webhookEndpoint]
    rfl
  have hne : (webhookEndpoint = []) = False := by
    simp only [eq_iff_iff, iff_false]; decide
  unfold Join
  simp only [List.dropWhile_cons, hne, decide_False, Bool.false_eq_true, if_false]
  rw [hE, hC]
  simp
  rfl

/-! ## Facts about the path encoding -/

theorem HasSuffix_slash (s : GoString) : HasSuffix s (str "/") = true ↔ ∃ t, s = t ++ [47] := by
  unfold HasSuffix
  rw [List.isSuffixOf_iff_suffix]
  constructor
  · rintro ⟨t, ht⟩; exact ⟨t, ht.symm⟩
  · rintro ⟨t, ht⟩; exact ⟨t, ht.symm⟩

theorem hasPrefixStr_slash (b : GoString) :
    hasPrefixStr b (str "/") = true ↔ ∃ t, b = 47 :: t := by
  unfold hasPrefixStr
  rw [List.isPrefixOf_iff_prefix]
  constructor
  · rintro ⟨t, ht⟩; exact ⟨t, ht.symm⟩
  · rintro ⟨t, ht⟩; exact ⟨t, ht.symm⟩

theorem HasSuffix_slash_getLast (s : GoString) :
    HasSuffix s (str "/") = true ↔ s.getLast? = some 47 := by
  rw [HasSuffix_slash]
  constructor
  · rintro ⟨t, rfl⟩; simp
  · intro h
    rcases List.eq_nil_or_concat s with h0 | ⟨t, c, rfl⟩
    · rw [h0] at h; simp at h
    · refine ⟨t, ?_⟩
      simp only [List.concat_eq_append, List.getLast?_append, List.getLast?_singleton,
        Option.or_some, Option.some.injEq] at h
      simp [h]

theorem escape_eq_flatMap (s : GoString) : escape s = s.flatMap escapeByte := by
  unfold escape
  simp only
  split
  · rename_i h
    rw [List.countP_eq_zero] at h
    induction s with
    | nil => rfl
    | cons c tl ih =>
      have hc : ¬ shouldEscape c = true := h c (by simp)
      rw [List.flatMap_cons, ← ih (fun a ha => h a (by simp [ha]))]
      simp [escapeByte, hc]
  · rfl

set_option maxRecDepth 100000 in
theorem escapeByte_getLast (c : Byte) : (escapeByte c).getLast? = some 47 ↔ c = 47 := by
  revert c; decide

theorem HasSuffix_escape (p : GoString) :
    HasSuffix (escape p) (str "/") = HasSuffix p (str "/") := by
  rw [Bool.eq_iff_iff, HasSuffix_slash_getLast, HasSuffix_slash_getLast, escape_eq_flatMap]
  rcases List.eq_nil_or_concat p with h0 | ⟨t, c, rfl⟩
  · rw [h0]; simp
  · have hne : (escapeByte c).getLast? ≠ none := by
      unfold escapeByte; split <;> simp
    simp only [List.concat_eq_append, List.flatMap_append, List.flatMap_cons, List.flatMap_nil,
      List.append_nil, List.getLast?_append, List.getLast?_singleton, Option.or_some]
    cases hl : (escapeByte c).getLast? with
    | none => exact absurd hl hne
    | some x =>
      have h2 := escapeByte_getLast c
      rw [hl] at h2
      simpa using h2

theorem unescape_cons_ne (c : Byte) (tl : GoString) (hc : c ≠ 37) :
    unescape (c :: tl) = (unescape tl).map (fun t => c :: t) := by
  rw [unescape.eq_def]; simp [hc]

theorem unescape_pct (h l : Byte) (rest : GoString) :
    unescape (37 :: h :: l :: rest)
      = if ishex h && ishex l then
          (unescape rest).map (fun t => Fin.ofNat (unhex h * 16 + unhex l) :: t)
        else none := by
  rw [unescape.eq_def]
  rfl

theorem unescape_pct_short (tl : GoString)
    (htl : ∀ (h l : Byte) (rest : List Byte), tl = h :: l :: rest → False) :
    unescape (37 :: tl) = none := by
  rw [unescape.eq_def]
  simp only [if_true]

theorem unescape_plain (x : GoString) (hx : (37 : Byte) ∉ x) : unescape x = some x := by
  induction x with
  | nil => rfl
  | cons c tl ih =>
    have hc : c ≠ 37 := fun h => hx (by simp [h])
    have ht : (37 : Byte) ∉ tl := fun h => hx (by simp [h])
    rw [unescape_cons_ne c tl hc, ih ht]
    rfl

/-- Decoding goes through a suffix without `%` unchanged. -/
theorem unescape_append (a x : GoString) (hx : (37 : Byte) ∉ x) :
    ∀ p, unescape a = some p → unescape (a ++ x) = some (p ++ x) := by
  induction a using unescape.induct with
  | case1 => intro p hp; simp [unescape] at hp; subst hp; simpa using unescape_plain x hx
  | case2 h l rest hh ih =>
    intro p hp
    rw [unescape_pct, if_pos hh] at hp
    cases hr : unescape rest with
    | none => rw [hr] at hp; simp at hp
    | some q =>
      rw [hr] at hp
      simp only [Option.map_some', Option.some.injEq] at hp
      subst hp
      rw [List.cons_append, List.cons_append, List.cons_append, unescape_pct, if_pos hh,
        ih q hr]
      rfl
  | case3 h l rest hh =>
    intro p hp
    rw [unescape_pct, if_neg hh] at hp
    simp at hp
  | case4 tl htl =>
    intro p hp
    rw [unescape_pct_short tl htl] at hp
    simp at hp
  | case5 c tl hc ih =>
    intro p hp
    rw [unescape_cons_ne c tl hc] at hp
    cases hr : unescape tl with
    | none => rw [hr] at hp; simp at hp
    | some q =>
      rw [hr] at hp
      simp only [Option.map_some', Option.some.injEq] at hp
      subst hp
      rw [List.cons_append, unescape_cons_ne c _ hc, ih q hr]
      rfl

/-- A decoded path ends with `/` when its encoding does. -/
theorem unescape_snoc_slash (t : GoString) :
    ∀ p, unescape (t ++ [47]) = some p → ∃ q, p = q ++ [47] := by
  induction t using unescape.induct with
  | case1 =>
    intro p hp
    rw [List.nil_append, unescape_plain [47] (by decide)] at hp
    exact ⟨[], by simpa using hp.symm⟩
  | case2 h l rest hh ih =>
    intro p hp
    rw [List.cons_append, List.cons_append, List.cons_append, unescape_pct, if_pos hh] at hp
    cases hr : unescape (rest ++ [47]) with
    | none => rw [hr] at hp; simp at hp
    | some q =>
      rw [hr] at hp
      simp only [Option.map_some', Option.some.injEq] at hp
      obtain ⟨q1, rfl⟩ := ih q hr
      exact ⟨_ :: q1, by rw [← hp]; rfl⟩
  | case3 h l rest hh =>
    intro p hp
    rw [List.cons_append, List.cons_append, List.cons_append, unescape_pct, if_neg hh] at hp
    simp at hp
  | case4 tl htl =>
    intro p hp
    exfalso
    match tl, htl with
    | [], _ =>
      rw [show ([37] : GoString) ++ [47] = 37 :: [47] from rfl,
        unescape_pct_short _ (by intro h l rest e; simp at e)] at hp
      simp at hp
    | [h], _ =>
      have : ¬ (ishex h && ishex 47) = true := by
        have : ishex 47 = false := by decide
        simp [this]
      rw [show (37 : Byte) :: [h] ++ [47] = 37 :: h :: 47 :: [] from rfl, unescape_pct,
        if_neg this] at hp
      simp at hp
    | h :: l :: rest, htl => exact htl h l rest rfl
  | case5 c tl hc ih =>
    intro p hp
    rw [List.cons_append, unescape_cons_ne c _ hc] at hp
    cases hr : unescape (tl ++ [47]) with
    | none => rw [hr] at hp; simp at hp
    | some q =>
      rw [hr] at hp
      simp only [Option.map_some', Option.some.injEq] at hp
      obtain ⟨q1, rfl⟩ := ih q hr
      exact ⟨c :: q1, by rw [← hp]; rfl⟩

theorem EscapedPath_slash (a : URL) (h : HasSuffix (EscapedPath a) (str "/") = true) :
    HasSuffix a.Path (str "/") = true := by
  unfold EscapedPath at h
  split at h
  · rename_i hv
    obtain ⟨t, ht⟩ := (HasSuffix_slash _).mp h
    have hu := hv.2.2
    rw [ht] at hu
    obtain ⟨q, hq⟩ := unescape_snoc_slash t _ hu
    exact (HasSuffix_slash _).mpr ⟨q, hq⟩
  · split at h
    · exact absurd h (by decide)
    · rwa [HasSuffix_escape] at h

theorem EscapedPath_slash_of_raw_nil (a : URL) (h : a.RawPath = []) :
    HasSuffix (EscapedPath a) (str "/") = HasSuffix a.Path (str "/") := by
  unfold EscapedPath
  rw [if_neg (by simp [h])]
  split
  · rename_i hp; rw [hp]
  · exact HasSuffix_escape _

theorem replaceFrom_single (o : Byte) (new s : GoString) :
    replaceFrom [o] new 0 s = s.flatMap (fun c => if c = o then new else [c]) := by
  induction s with
  | nil => rfl
  | cons c tl ih =>
    rw [replaceFrom]
    by_cases hc : c = o
    · subst hc
      simp [ih]
    · have : ¬ o = c := fun h => hc h.symm
      simp [hc, this, ih]

theorem escapeTelegam_eq (u : GoString) : escapeTelegam u = insertBackslashes u := by
  unfold escapeTelegam ReplaceAll insertBackslashes
  rw [if_neg (by decide), if_neg (by decide)]
  rw [show str "." = [46] from rfl, show str "-" = [45] from rfl, replaceFrom_single,
    replaceFrom_single, List.flatMap_assoc]
  congr 1
  funext c
  by_cases h46 : c = 46
  · subst h46; decide
  · by_cases h45 : c = 45
    · subst h45; decide
    · simp [h46, h45]

theorem insertBackslashes_length (u : GoString) :
    (insertBackslashes u).length = u.length + u.countP (fun c => c = 46 ∨ c = 45) := by
  unfold insertBackslashes
  induction u with
  | nil => rfl
  | cons c tl ih =>
    rw [List.flatMap_cons, List.length_append, ih, List.countP_cons]
    by_cases h : c = 46 ∨ c = 45
    · simp [h]; omega
    · simp [h]; omega

theorem dropBackslashes_insert (u : GoString) : dropBackslashes (insertBackslashes u) = u := by
  induction u with
  | nil => rfl
  | cons c tl ih =>
    unfold insertBackslashes at ih ⊢
    rw [List.flatMap_cons]
    by_cases h : c = 46 ∨ c = 45
    · rw [if_pos h]
      simp only [List.cons_append, List.nil_append]
      rw [dropBackslashes, if_pos ⟨rfl, h⟩, ih]
    · rw [if_neg h]
      simp only [List.cons_append, List.nil_append]
      cases tl with
      | nil => rfl
      | cons d tl2 =>
        rw [List.flatMap_cons] at ih ⊢
        by_cases hd : d = 46 ∨ d = 45
        · rw [if_pos hd] at ih ⊢
          simp only [List.cons_append, List.nil_append] at ih ⊢
          rw [dropBackslashes, if_neg (by
            rintro ⟨_, h1 | h1⟩ <;> exact absurd h1 (by decide)), ih]
        · rw [if_neg hd] at ih ⊢
          simp only [List.cons_append, List.nil_append] at ih ⊢
          rw [dropBackslashes, if_neg (by
            rintro ⟨_, h1⟩; exact hd h1), ih]

theorem ByName_chatID (chatID uuid body : GoString) :
    ByName (webhookRequest chatID uuid body).params (str "chatID") = chatID := by
  simp [webhookRequest, ByName]

theorem ByName_uuid (chatID uuid body : GoString) :
    ByName (webhookRequest chatID uuid body).params (str "uuid") = uuid := by
  have h : ¬ str "chatID" = str "uuid" := by decide
  simp [webhookRequest, ByName, h]

theorem handleWebhook_forbidden (decode : GoString → Except GoString Event)
    (sendErr : Option SendError) (d : Diskv) (r : Request) (cid : Int)
    (hp : ParseInt (ByName r.params (str "chatID")) = .ok cid)
    (hs : d.ReadString (ByName r.params (str "chatID")) ≠ ByName r.params (str "uuid")) :
    handleWebhook decode sendErr d r = ⟨d, [.httpError [] 403], .written 403 (str "\n")⟩ := by
  unfold handleWebhook
  simp only [hp, hs, ne_eq, not_false_eq_true, if_true]
  rfl

theorem handleWebhook_passed (decode : GoString → Except GoString Event)
    (sendErr : Option SendError) (d : Diskv) (r : Request) (cid : Int)
    (hp : ParseInt (ByName r.params (str "chatID")) = .ok cid)
    (hs : d.ReadString (ByName r.params (str "chatID")) = ByName r.params (str "uuid")) :
    bodyRead (handleWebhook decode sendErr d r).trace = true
    ∧ (∀ e, decode r.body = .ok e → sendErr = none →
        handleWebhook decode sendErr d r
          = ⟨d, [.decode r.body, .send cid (escapeTelegam (eventText e))], .written 200 []⟩) := by
  unfold handleWebhook
  simp only [hp, hs, ne_eq, not_true_eq_false, if_false]
  constructor
  · cases decode r.body with
    | error err => rfl
    | ok e =>
      cases sendErr with
      | none => rfl
      | some se => cases se <;> rfl
  · intro e he hn
    rw [he, hn]

theorem ReadString_absent (d : Diskv) (key : GoString)
    (h : d.files key = none ∨ d.files key = some .unreadable) : d.ReadString key = [] := by
  unfold Diskv.ReadString
  rcases h with h | h <;> rw [h]

theorem ReadString_value (d : Diskv) (key s : GoString) (h : d.files key = some (.value s)) :
    d.ReadString key = s := by
  unfold Diskv.ReadString
  rw [h]

theorem WriteString_FormatInt (d : Diskv) (ioErr : Option GoString) (c : Int) (val : GoString) :
    d.WriteString ioErr (FormatInt c) val
      = match ioErr with
        | some e => (d, some e)
        | none => (d.put (FormatInt c) val, none) := by
  unfold Diskv.WriteString
  rw [if_neg (FormatInt_ne_nil c), if_neg (FormatInt_no_slash c)]
  rfl

theorem handleStart_registered (urlString : URL → GoString) (d : Diskv) (w : World)
    (baseURL : URL) (m : Message) (h : d.Has (FormatInt m.chatID) = true) :
    handleStart urlString d w baseURL m = ⟨d, []⟩ := by
  unfold handleStart
  simp only [h, if_true]

theorem handleStart_fresh (urlString : URL → GoString) (d : Diskv) (w : World)
    (baseURL : URL) (m : Message) (h : d.Has (FormatInt m.chatID) = false)
    (hw : w.writeErr = none) :
    (handleStart urlString d w baseURL m).store = d.put (FormatInt m.chatID) w.uuid
    ∧ writes (handleStart urlString d w baseURL m).trace = [(FormatInt m.chatID, w.uuid)]
    ∧ sends (handleStart urlString d w baseURL m).trace
        = [(m.chatID, str "Your webhook URL is:\n["
            ++ escapeTelegam (generateURL urlString baseURL
                (Join [webhookEndpoint, FormatInt m.chatID, w.uuid]))
            ++ str "](" ++ generateURL urlString baseURL
                (Join [webhookEndpoint, FormatInt m.chatID, w.uuid]) ++ str ")")] := by
  unfold handleStart
  simp only [h, Bool.false_eq_true, if_false, WriteString_FormatInt, hw]
  cases w.sendErr with
  | none => exact ⟨rfl, rfl, rfl⟩
  | some e => exact ⟨rfl, rfl, rfl⟩

theorem handleStart_write_failed (urlString : URL → GoString) (d : Diskv) (w : World)
    (baseURL : URL) (m : Message) (h : d.Has (FormatInt m.chatID) = false) (e : GoString)
    (hw : w.writeErr = some e) :
    (handleStart urlString d w baseURL m).store = d
    ∧ sends (handleStart urlString d w baseURL m).trace = [] := by
  unfold handleStart
  simp only [h, Bool.false_eq_true, if_false, WriteString_FormatInt, hw]
  refine ⟨?_, ?_⟩ <;> first | rfl | trivial

theorem handleRotate_unregistered (urlString : URL → GoString) (d : Diskv) (w : World)
    (baseURL : URL) (m : Message) (h : d.Has (FormatInt m.chatID) = false) :
    (handleRotate urlString d w baseURL m).store = d
    ∧ writes (handleRotate urlString d w baseURL m).trace = []
    ∧ sends (handleRotate urlString d w baseURL m).trace
        = [(m.chatID, escapeTelegam
            (str "This chat is not yet initialized. Send /start to start receiving updates."))] := by
  unfold handleRotate
  simp only [h, Bool.false_eq_true, not_false_eq_true, if_true]
  cases w.sendErr with
  | none => exact ⟨rfl, rfl, rfl⟩
  | some e => exact ⟨rfl, rfl, rfl⟩

theorem handleRotate_registered (urlString : URL → GoString) (d : Diskv) (w : World)
    (baseURL : URL) (m : Message) (h : d.Has (FormatInt m.chatID) = true)
    (hw : w.writeErr = none) :
    (handleRotate urlString d w baseURL m).store = d.put (FormatInt m.chatID) w.uuid
    ∧ writes (handleRotate urlString d w baseURL m).trace = [(FormatInt m.chatID, w.uuid)]
    ∧ sends (handleRotate urlString d w baseURL m).trace
        = [(m.chatID, str "Your new webhook URL is:\n["
            ++ escapeTelegam (generateURL urlString baseURL
                (Join [webhookEndpoint, FormatInt m.chatID, w.uuid]))
            ++ str "](" ++ generateURL urlString baseURL
                (Join [webhookEndpoint, FormatInt m.chatID, w.uuid]) ++ str ")")] := by
  unfold handleRotate
  simp only [h, not_true_eq_false, if_false, WriteString_FormatInt, hw]
  cases w.sendErr with
  | none => exact ⟨rfl, rfl, rfl⟩
  | some e => exact ⟨rfl, rfl, rfl⟩

theorem handleRotate_write_failed (urlString : URL → GoString) (d : Diskv) (w : World)
    (baseURL : URL) (m : Message) (h : d.Has (FormatInt m.chatID) = true) (e : GoString)
    (hw : w.writeErr = some e) :
    (handleRotate urlString d w baseURL m).store = d
    ∧ sends (handleRotate urlString d w baseURL m).trace = [] := by
  unfold handleRotate
  simp only [h, not_true_eq_false, if_false, WriteString_FormatInt, hw]
  refine ⟨?_, ?_⟩ <;> first | rfl | trivial

theorem Has_of_value (d : Diskv) (key : GoString) (e : Entry) (h : d.files key = some e) :
    d.Has key = true := by
  unfold Diskv.Has; rw [h]; rfl

theorem Has_of_none (d : Diskv) (key : GoString) (h : d.files key = none) :
    d.Has key = false := by
  unfold Diskv.Has; rw [h]; rfl

theorem put_files_self (d : Diskv) (key val : GoString) :
    (d.put key val).files key = some (.value val) := by
  simp [Diskv.put]

theorem put_files_other (d : Diskv) (key val k : GoString) (h : k ≠ key) :
    (d.put key val).files k = d.files k := by
  simp [Diskv.put, h]

/-- The credential check for a registered recipient: it passes exactly on the
stored secret, and every other presented string is answered with 403. -/
theorem credential_check_registered (decode : GoString → Except GoString Event)
    (sendErr : Option SendError) (d : Diskv) (c : Int) (s p body : GoString)
    (hlo : -2 ^ 63 ≤ c) (hhi : c < 2 ^ 63)
    (hreg : d.files (FormatInt c) = some (.value s)) :
    (bodyRead (handleWebhook decode sendErr d (webhookRequest (FormatInt c) p body)).trace = true
        ↔ p = s)
    ∧ (p ≠ s →
        handleWebhook decode sendErr d (webhookRequest (FormatInt c) p body)
          = ⟨d, [.httpError [] 403], .written 403 (str "\n")⟩) := by
  have hparse : ParseInt (ByName (webhookRequest (FormatInt c) p body).params (str "chatID"))
      = .ok c := by rw [ByName_chatID]; exact ParseInt_FormatInt c hlo hhi
  have hread : d.ReadString (ByName (webhookRequest (FormatInt c) p body).params (str "chatID"))
      = s := by rw [ByName_chatID]; exact ReadString_value d _ s hreg
  have hforb : p ≠ s →
      handleWebhook decode sendErr d (webhookRequest (FormatInt c) p body)
        = ⟨d, [.httpError [] 403], .written 403 (str "\n")⟩ := by
    intro hne
    exact handleWebhook_forbidden decode sendErr d _ c hparse
      (by rw [hread, ByName_uuid]; exact fun e => hne e.symm)
  refine ⟨⟨?_, ?_⟩, hforb⟩
  · intro hb
    by_contra hne
    rw [hforb hne] at hb
    exact absurd hb (by simp [bodyRead])
  · intro he
    exact (handleWebhook_passed decode sendErr d _ c hparse
      (by rw [hread, ByName_uuid]; exact he.symm)).1

theorem handleStart_store (urlString : URL → GoString) (d : Diskv) (w : World)
    (baseURL : URL) (m : Message) :
    (handleStart urlString d w baseURL m).store = d
    ∨ ((handleStart urlString d w baseURL m).store = d.put (FormatInt m.chatID) w.uuid
        ∧ d.Has (FormatInt m.chatID) = false) := by
  cases h : d.Has (FormatInt m.chatID) with
  | true => left; rw [handleStart_registered urlString d w baseURL m h]
  | false =>
    cases hw : w.writeErr with
    | none => right; exact ⟨(handleStart_fresh urlString d w baseURL m h hw).1, rfl⟩
    | some e => left; exact (handleStart_write_failed urlString d w baseURL m h e hw).1

theorem handleRotate_store (urlString : URL → GoString) (d : Diskv) (w : World)
    (baseURL : URL) (m : Message) :
    (handleRotate urlString d w baseURL m).store = d
    ∨ ((handleRotate urlString d w baseURL m).store = d.put (FormatInt m.chatID) w.uuid
        ∧ d.Has (FormatInt m.chatID) = true) := by
  cases h : d.Has (FormatInt m.chatID) with
  | false => left; exact (handleRotate_unregistered urlString d w baseURL m h).1
  | true =>
    cases hw : w.writeErr with
    | none => right; exact ⟨(handleRotate_registered urlString d w baseURL m h hw).1, rfl⟩
    | some e => left; exact (handleRotate_write_failed urlString d w baseURL m h e hw).1

theorem handleWebhook_store (decode : GoString → Except GoString Event)
    (sendErr : Option SendError) (d : Diskv) (r : Request) :
    (handleWebhook decode sendErr d r).store = d
    ∧ writes (handleWebhook decode sendErr d r).trace = [] := by
  unfold handleWebhook
  simp only
  split
  · exact ⟨rfl, rfl⟩
  · split
    · exact ⟨rfl, rfl⟩
    · split
      · exact ⟨rfl, rfl⟩
      · split <;> exact ⟨rfl, rfl⟩

theorem put_keeps (d : Diskv) (key val k : GoString) (h : d.files k ≠ none) :
    (d.put key val).files k ≠ none := by
  unfold Diskv.put
  simp only
  split
  · simp
  · exact h

theorem joinURLPath_path (a : URL) (b : GoString)
    (h : HasSuffix (EscapedPath a) (str "/") = HasSuffix a.Path (str "/")) :
    (joinURLPath a b).1 = singleJoiningSlash a.Path b := by
  unfold joinURLPath
  split
  · rfl
  · simp only [h]
    unfold singleJoiningSlash
    simp only
    split
    · rfl
    · split <;> rfl

theorem singleJoiningSlash_cases (p b : GoString) :
    (HasSuffix p (str "/") = true → hasPrefixStr b (str "/") = true →
        singleJoiningSlash p b = p ++ b.drop 1)
    ∧ (HasSuffix p (str "/") = false → hasPrefixStr b (str "/") = false →
        singleJoiningSlash p b = p ++ str "/" ++ b)
    ∧ (HasSuffix p (str "/") ≠ hasPrefixStr b (str "/") → singleJoiningSlash p b = p ++ b) := by
  unfold singleJoiningSlash
  refine ⟨?_, ?_, ?_⟩
  · intro h1 h2; simp [h1, h2]
  · intro h1 h2; simp [h1, h2]
  · intro h
    cases h1 : HasSuffix p (str "/") <;> cases h2 : hasPrefixStr b (str "/") <;>
      simp_all

/-- A suffix that starts with `/` is found unchanged at the end of the joined
path. -/
theorem joinURLPath_suffix (a : URL) (b : GoString) (hb : hasPrefixStr b (str "/") = true) :
    b <:+ (joinURLPath a b).1 := by
  obtain ⟨t, ht⟩ := (hasPrefixStr_slash b).mp hb
  have hne : b ≠ [] := by rw [ht]; simp
  unfold joinURLPath
  rw [if_neg (fun h => hne h.2)]
  simp only [hb, Bool.and_true, Bool.not_true, Bool.and_false, Bool.false_eq_true, if_false]
  split
  · rename_i hs
    obtain ⟨q, hq⟩ := (HasSuffix_slash _).mp (EscapedPath_slash a hs)
    refine ⟨q, ?_⟩
    rw [hq, ht]
    simp
  · exact ⟨a.Path, rfl⟩

/-! ## Facts about the route -/

theorem webhookRoute_eq : webhookRoute = str "/api/v1/webhook/:chatID/:uuid" := by decide

/-- The router binds no empty secret: a path that reaches the handler is the
route prefix, a chat id without `/`, one `/`, and a non-empty secret without
`/`. -/
theorem lookupWebhook_some (path : GoString) (ps : List (GoString × GoString))
    (h : lookupWebhook path = some ps) :
    ∃ c u, ps = [(str "chatID", c), (str "uuid", u)] ∧ u ≠ [] := by
  unfold lookupWebhook at h
  simp only at h
  split at h
  · split at h
    · exact absurd h (by simp)
    · split at h
      · rename_i hlen
        split at h
        · rename_i hdrop
          refine ⟨_, _, (Option.some.inj h).symm, ?_⟩
          intro hu
          have hsplit := List.takeWhile_append_dropWhile (fun x => decide (x ≠ (47 : Byte)))
            (List.drop 1 (List.dropWhile (fun x => decide (x ≠ (47 : Byte)))
              (List.drop (str "/api/v1/webhook/").length path)))
          rw [hu, hdrop] at hsplit
          have hl := congrArg List.length hsplit
          simp only [List.append_nil, List.length_nil, List.length_drop] at hl
          omega
        · exact absurd h (by simp)
      · exact absurd h (by simp)
  · exact absurd h (by simp)

theorem lookupWebhook_build (c u : GoString) (hc : (47 : Byte) ∉ c) :
    lookupWebhook (str "/api/v1/webhook/" ++ c ++ str "/" ++ u)
      = if u ≠ [] ∧ (47 : Byte) ∉ u then some [(str "chatID", c), (str "uuid", u)] else none := by
  have hlen : (str "/api/v1/webhook/" ++ c ++ str "/" ++ u).length
      > (str "/api/v1/webhook/").length := by
    simp only [List.length_append]
    have : (str "/").length = 1 := by decide
    omega
  have htake : (str "/api/v1/webhook/" ++ c ++ str "/" ++ u).take (str "/api/v1/webhook/").length
      = str "/api/v1/webhook/" := by
    rw [List.append_assoc, List.append_assoc, List.take_left]
  have hdrop : (str "/api/v1/webhook/" ++ c ++ str "/" ++ u).drop (str "/api/v1/webhook/").length
      = c ++ (47 :: u) := by
    rw [List.append_assoc, List.append_assoc, List.drop_left]
    rfl
  obtain ⟨ht, hd⟩ := takeWhile_segment c (47 :: u) hc (Or.inr rfl)
  unfold lookupWebhook
  simp only [hlen, htake, hdrop, ht, hd, and_self, if_true, reduceCtorEq, if_false,
    List.length_cons, List.drop_succ_cons, List.drop_zero]
  by_cases hu : u = []
  · subst hu; simp
  · have hpos : 0 < u.length := List.length_pos.mpr hu
    rw [if_pos (by omega)]
    by_cases hs : (47 : Byte) ∈ u
    · have hne : u.dropWhile (fun x => decide (x ≠ (47 : Byte))) ≠ [] := by
        intro h0
        rw [List.dropWhile_eq_nil_iff] at h0
        have := h0 47 hs
        simp at this
      simp [hne, hs]
    · obtain ⟨ht2, hd2⟩ := takeWhile_segment u [] hs (Or.inl rfl)
      rw [List.append_nil] at ht2 hd2
      rw [ht2, hd2]
      simp [hu, hs]

/-! ## Facts about `ParseInt`: only digits after the sign -/

theorem parseUintLoop_ok_digits (s : GoString) : ∀ (n v : Nat),
    parseUintLoop s n = (v, none) → ∀ b ∈ s, isDigit b := by
  induction s with
  | nil => intro n v _ b hb; simp at hb
  | cons c tl ih =>
    intro n v h b hb
    rw [parseUintLoop] at h
    split at h
    · rename_i hd
      simp only at h
      split at h
      · simp at h
      · split at h
        · simp at h
        · rcases List.mem_cons.mp hb with h1 | h1
          · rw [h1]; exact hd
          · exact ih _ _ h b h1
    · simp at h

theorem parseUintLoop_range (s : GoString) : ∀ (n v : Nat),
    parseUintLoop s n = (v, some .ErrRange) → v = maxUint64 := by
  induction s with
  | nil => intro n v h; simp [parseUintLoop] at h
  | cons c tl ih =>
    intro n v h
    rw [parseUintLoop] at h
    split at h
    · simp only at h
      split at h
      · simp only [Prod.mk.injEq] at h; exact h.1.symm
      · split at h
        · simp only [Prod.mk.injEq] at h; exact h.1.symm
        · exact ih _ _ h
    · simp at h

theorem ParseUint_ok_digits (s : GoString) (v : Nat) (h : ParseUint s = (v, none)) :
    ∀ b ∈ s, isDigit b := by
  unfold ParseUint at h
  split at h
  · simp at h
  · exact parseUintLoop_ok_digits s 0 v h

theorem ParseUint_range (s : GoString) (v : Nat) (h : ParseUint s = (v, some .ErrRange)) :
    v = maxUint64 := by
  unfold ParseUint at h
  split at h
  · simp at h
  · exact parseUintLoop_range s 0 v h

/-- A string that `ParseInt` accepts has only digits after its optional sign. -/
theorem ParseInt_ok_digits (s : GoString) (v : Int) (h : ParseInt s = .ok v) :
    ∀ b ∈ (if s.head? = some 43 then s.drop 1 else if s.head? = some 45 then s.drop 1 else s),
      isDigit b := by
  unfold ParseInt at h
  split at h
  · simp at h
  · simp only at h
    generalize hs1 : (if s.head? = some 43 then s.drop 1
      else if s.head? = some 45 then s.drop 1 else s) = s1 at h ⊢
    rcases hr : ParseUint s1 with ⟨un, err⟩
    rw [hr] at h
    cases err with
    | none => exact ParseUint_ok_digits s1 un hr
    | some e =>
      cases e with
      | ErrSyntax => simp at h
      | ErrRange =>
        exfalso
        have hun := ParseUint_range s1 un hr
        simp only [hun, maxUint64] at h
        split at h
        · simp at h
        · split at h
          · simp at h
          · rename_i h1 h2
            by_cases hneg : s.head? = some 45
            · exact h2 ⟨hneg, by norm_num⟩
            · exact h1 ⟨hneg, by norm_num⟩

theorem ParseInt_ok_no_slash (s : GoString) (v : Int) (h : ParseInt s = .ok v) :
    (47 : Byte) ∉ s := by
  have hd := ParseInt_ok_digits s v h
  intro hm
  match s, hd, hm with
  | c :: tl, hd, hm =>
    simp only [List.head?_cons, Option.some.injEq, List.drop_succ_cons, List.drop_zero] at hd
    rcases List.mem_cons.mp hm with h1 | h1
    · rw [← h1] at hd
      simp only [show ((47 : Byte) = 43) = False by decide,
        show ((47 : Byte) = 45) = False by decide, if_false] at hd
      exact absurd (hd 47 (by simp)) (by decide)
    · have : isDigit 47 := by
        split at hd
        · exact hd 47 h1
        · split at hd
          · exact hd 47 h1
          · exact hd 47 (List.mem_cons_of_mem _ h1)
      exact absurd this (by decide)

/-- The joined path of a suffix that starts with `/` is the base path, without
its trailing slash if the escaped base path has one, followed by the suffix
as it is. -/
theorem joinURLPath_base_suffix (a : URL) (b : GoString)
    (hb : hasPrefixStr b (str "/") = true) :
    ∃ pre, (joinURLPath a b).1 = pre ++ b ∧ (pre = a.Path ∨ pre ++ str "/" = a.Path) := by
  obtain ⟨t, ht⟩ := (hasPrefixStr_slash b).mp hb
  have hne : b ≠ [] := by rw [ht]; simp
  unfold joinURLPath
  rw [if_neg (fun h => hne h.2)]
  simp only [hb, Bool.and_true, Bool.not_true, Bool.and_false, Bool.false_eq_true, if_false]
  split
  · rename_i hs
    obtain ⟨q, hq⟩ := (HasSuffix_slash _).mp (EscapedPath_slash a hs)
    refine ⟨q, ?_, Or.inr hq.symm⟩
    rw [hq, ht]
    simp
  · exact ⟨a.Path, rfl, Or.inl rfl⟩

/-! ## The claims -/

/-- C1: verification rejects unknown recipients. For every store state and
every recipient id that parses as a decimal int64 and has no record in the
store (or a record whose read fails, which reads as absence), every request
the router hands to handleWebhook for that recipient fails the credential
check: the response is 403 and no message is submitted to the transport.
This holds for every string presented as the secret in the request path: a
non-empty secret without `/` reaches the handler and is answered with 403, and
for any other string the router calls no handler at all. -/
theorem C1_unknown_recipient_rejected (decode : GoString → Except GoString Event)
    (sendErr : Option SendError) (d : Diskv) (chatID body : GoString) (cid : Int)
    (hparse : ParseInt chatID = .ok cid)
    (habsent : d.files chatID = none ∨ d.files chatID = some .unreadable) :
    (∀ path ps, lookupWebhook path = some ps → ByName ps (str "chatID") = chatID →
        handleWebhook decode sendErr d ⟨ps, body⟩
          = ⟨d, [.httpError [] 403], .written 403 (str "\n")⟩
        ∧ sends (handleWebhook decode sendErr d ⟨ps, body⟩).trace = [])
    ∧ (∀ secret : GoString,
        ServeHTTP decode sendErr d (str "POST")
            (str "/api/v1/webhook/" ++ chatID ++ str "/" ++ secret) body = none
        ∨ ServeHTTP decode sendErr d (str "POST")
            (str "/api/v1/webhook/" ++ chatID ++ str "/" ++ secret) body
          = some ⟨d, [.httpError [] 403], .written 403 (str "\n")⟩)
    ∧ (∀ secret : GoString, secret ≠ [] → (47 : Byte) ∉ secret →
        ServeHTTP decode sendErr d (str "POST")
            (str "/api/v1/webhook/" ++ chatID ++ str "/" ++ secret) body
          = some ⟨d, [.httpError [] 403], .written 403 (str "\n")⟩)
    ∧ (∀ secret : GoString, secret ≠ [] →
        handleWebhook decode sendErr d (webhookRequest chatID secret body)
          = ⟨d, [.httpError [] 403], .written 403 (str "\n")⟩) := by
  have hforb : ∀ secret : GoString, secret ≠ [] →
      handleWebhook decode sendErr d (webhookRequest chatID secret body)
        = ⟨d, [.httpError [] 403], .written 403 (str "\n")⟩ := by
    intro secret hne
    exact handleWebhook_forbidden decode sendErr d (webhookRequest chatID secret body) cid
      (by rw [ByName_chatID]; exact hparse)
      (by rw [ByName_chatID, ByName_uuid, ReadString_absent d chatID habsent]
          exact fun e => hne e.symm)
  have hslash := ParseInt_ok_no_slash chatID cid hparse
  have hserve : ∀ secret : GoString, secret ≠ [] → (47 : Byte) ∉ secret →
      ServeHTTP decode sendErr d (str "POST")
          (str "/api/v1/webhook/" ++ chatID ++ str "/" ++ secret) body
        = some ⟨d, [.httpError [] 403], .written 403 (str "\n")⟩ := by
    intro secret hne hs
    unfold ServeHTTP
    rw [if_pos rfl, lookupWebhook_build chatID secret hslash, if_pos ⟨hne, hs⟩]
    exact congrArg some (hforb secret hne)
  refine ⟨?_, ?_, hserve, hforb⟩
  · intro path ps hroute hc
    obtain ⟨c, u, hps, hu⟩ := lookupWebhook_some path ps hroute
    have hcc : c = chatID := by
      rw [hps] at hc
      simpa [ByName] using hc
    have h := hforb u hu
    rw [hps, hcc]
    rw [show (⟨[(str "chatID", chatID), (str "uuid", u)], body⟩ : Request)
      = webhookRequest chatID u body from rfl, h]
    exact ⟨rfl, rfl⟩
  · intro secret
    by_cases hok : secret ≠ [] ∧ (47 : Byte) ∉ secret
    · exact Or.inr (hserve secret hok.1 hok.2)
    · left
      unfold ServeHTTP
      rw [if_pos rfl, lookupWebhook_build chatID secret hslash, if_neg hok]
      rfl

/-- Witness of C1: the empty store and a POST to `/api/v1/webhook/42/x`. -/
theorem C1_unknown_recipient_rejected_witness :
    ServeHTTP (fun _ => .ok ⟨[], [], []⟩) none ⟨fun _ => none⟩ (str "POST")
        (str "/api/v1/webhook/42/x") (str "body")
      = some ⟨⟨fun _ => none⟩, [.httpError [] 403], .written 403 (str "\n")⟩
    ∧ ServeHTTP (fun _ => .ok ⟨[], [], []⟩) none ⟨fun _ => none⟩ (str "POST")
        (str "/api/v1/webhook/42/") (str "body") = none := by
  have h := C1_unknown_recipient_rejected (fun _ => .ok ⟨[], [], []⟩) none ⟨fun _ => none⟩
    (str "42") (str "body") 42 (by decide) (Or.inl rfl)
  refine ⟨h.2.2.1 (str "x") (by decide) (by decide), ?_⟩
  rcases h.2.1 [] with h0 | h0
  · exact h0
  · exact absurd h0 (by
      rw [show ServeHTTP (fun _ => .ok ⟨[], [], []⟩) none ⟨fun _ => none⟩ (str "POST")
        (str "/api/v1/webhook/" ++ str "42" ++ str "/" ++ []) (str "body") = none from rfl]
      simp)

/-- C2: for a recipient registered with the stored secret `s`, the credential
check of the webhook handler passes exactly when the presented string equals
`s`; every presented string that differs from `s` in one byte (replaced,
inserted or removed) is answered with 403. -/
theorem C2_exact_match (decode : GoString → Except GoString Event)
    (sendErr : Option SendError) (d : Diskv) (c : Int) (s p body : GoString)
    (hlo : -2 ^ 63 ≤ c) (hhi : c < 2 ^ 63)
    (hreg : d.files (FormatInt c) = some (.value s)) :
    (bodyRead (handleWebhook decode sendErr d (webhookRequest (FormatInt c) p body)).trace = true
        ↔ p = s)
    ∧ (p ≠ s →
        handleWebhook decode sendErr d (webhookRequest (FormatInt c) p body)
          = ⟨d, [.httpError [] 403], .written 403 (str "\n")⟩)
    ∧ (∀ pre post x y, x ≠ y → s = pre ++ x :: post → p = pre ++ y :: post →
        (handleWebhook decode sendErr d (webhookRequest (FormatInt c) p body)).reply
          = .written 403 (str "\n"))
    ∧ (∀ pre post x, s = pre ++ post → p = pre ++ x :: post →
        (handleWebhook decode sendErr d (webhookRequest (FormatInt c) p body)).reply
          = .written 403 (str "\n"))
    ∧ (∀ pre post x, s = pre ++ x :: post → p = pre ++ post →
        (handleWebhook decode sendErr d (webhookRequest (FormatInt c) p body)).reply
          = .written 403 (str "\n")) := by
  obtain ⟨hiff, hforb⟩ := credential_check_registered decode sendErr d c s p body hlo hhi hreg
  refine ⟨hiff, hforb, ?_, ?_, ?_⟩
  · intro pre post x y hxy hs hp
    rw [hforb (by
      rw [hs, hp]
      intro e
      have := List.append_cancel_left e
      simp only [List.cons.injEq] at this
      exact hxy this.1.symm)]
  · intro pre post x hs hp
    rw [hforb (by
      rw [hs, hp]
      intro e
      have := congrArg List.length e
      simp at this)]
  · intro pre post x hs hp
    rw [hforb (by
      rw [hs, hp]
      intro e
      have := congrArg List.length e
      simp at this)]

/-- Witness of C2: recipient 42 registered with `s1`; the presented `s2`
differs in one byte and is refused, `s1` itself passes. -/
theorem C2_exact_match_witness :
    (bodyRead (handleWebhook (fun _ => .ok ⟨[], [], []⟩) none
        ⟨fun k => if k = str "42" then some (.value (str "s1")) else none⟩
        (webhookRequest (FormatInt 42) (str "s1") [])).trace = true ↔ str "s1" = str "s1")
    ∧ (handleWebhook (fun _ => .ok ⟨[], [], []⟩) none
        ⟨fun k => if k = str "42" then some (.value (str "s1")) else none⟩
        (webhookRequest (FormatInt 42) (str "s2") [])).reply = .written 403 (str "\n") := by
  refine ⟨?_, ?_⟩
  · exact (C2_exact_match (fun _ => .ok ⟨[], [], []⟩) none
      ⟨fun k => if k = str "42" then some (.value (str "s1")) else none⟩ 42 (str "s1") (str "s1")
      [] (by decide) (by decide) (by decide)).1
  · exact (C2_exact_match (fun _ => .ok ⟨[], [], []⟩) none
      ⟨fun k => if k = str "42" then some (.value (str "s1")) else none⟩ 42 (str "s1") (str "s2")
      [] (by decide) (by decide) (by decide)).2.2.1 (str "s") [] 49 50 (by decide) (by decide)
      (by decide)

/-- C3, as the code has it: for a recipient registered with the secret `old`,
after a run of handleRotate whose store write succeeds and which mints a
secret `new` different from `old`, the stored secret is `new`, the credential
check of the webhook handler rejects the old secret with 403 and accepts the
new one. -/
theorem C3_rotation_invalidates_old (urlString : URL → GoString)
    (decode : GoString → Except GoString Event) (sendErr : Option SendError)
    (d : Diskv) (w : World) (baseURL : URL) (c : Int) (old body : GoString)
    (hlo : -2 ^ 63 ≤ c) (hhi : c < 2 ^ 63)
    (hreg : d.files (FormatInt c) = some (.value old))
    (hw : w.writeErr = none) (hnew : w.uuid ≠ old) :
    (handleRotate urlString d w baseURL ⟨c⟩).store.files (FormatInt c) = some (.value w.uuid)
    ∧ handleWebhook decode sendErr (handleRotate urlString d w baseURL ⟨c⟩).store
          (webhookRequest (FormatInt c) old body)
        = ⟨(handleRotate urlString d w baseURL ⟨c⟩).store, [.httpError [] 403],
            .written 403 (str "\n")⟩
    ∧ bodyRead (handleWebhook decode sendErr (handleRotate urlString d w baseURL ⟨c⟩).store
          (webhookRequest (FormatInt c) w.uuid body)).trace = true := by
  have hst := (handleRotate_registered urlString d w baseURL ⟨c⟩
    (Has_of_value d _ _ hreg) hw).1
  have hf : (handleRotate urlString d w baseURL ⟨c⟩).store.files (FormatInt c)
      = some (.value w.uuid) := by rw [hst]; exact put_files_self d _ _
  refine ⟨hf, ?_, ?_⟩
  · exact (credential_check_registered decode sendErr _ c w.uuid old body hlo hhi hf).2
      (fun e => hnew e.symm)
  · exact (credential_check_registered decode sendErr _ c w.uuid w.uuid body hlo hhi hf).1.mpr rfl

/-- Witness of C3: recipient 42 rotates from `s1` to `s2`. -/
theorem C3_rotation_invalidates_old_witness :
    (handleWebhook (fun _ => .ok ⟨[], [], []⟩) none
        (handleRotate (fun u => u.Path)
          ⟨fun k => if k = str "42" then some (.value (str "s1")) else none⟩
          ⟨str "s2", none, none⟩ ⟨[], [], none, [], [], [], false, false, [], [], []⟩ ⟨42⟩).store
        (webhookRequest (FormatInt 42) (str "s1") [])).reply = .written 403 (str "\n")
    ∧ bodyRead (handleWebhook (fun _ => .ok ⟨[], [], []⟩) none
        (handleRotate (fun u => u.Path)
          ⟨fun k => if k = str "42" then some (.value (str "s1")) else none⟩
          ⟨str "s2", none, none⟩ ⟨[], [], none, [], [], [], false, false, [], [], []⟩ ⟨42⟩).store
        (webhookRequest (FormatInt 42) (str "s2") [])).trace = true := by
  have h := C3_rotation_invalidates_old (fun u => u.Path) (fun _ => .ok ⟨[], [], []⟩) none
    ⟨fun k => if k = str "42" then some (.value (str "s1")) else none⟩
    ⟨str "s2", none, none⟩ ⟨[], [], none, [], [], [], false, false, [], [], []⟩ 42 (str "s1") []
    (by decide) (by decide) (by decide) rfl (by decide)
  exact ⟨congrArg HttpOutcome.reply h.2.1, h.2.2⟩

/-- Counterexample to C3 as stated: recipient 42 is registered with a UUID,
handleRotate mints the same UUID again and its write succeeds; the old secret
is then still accepted (the body is read, the answer is 200) instead of being
rejected with 403. -/
theorem C3_same_secret_counterexample :
    (⟨fun k => if k = str "42" then
        some (.value (str "123e4567-e89b-42d3-a456-426614174000")) else none⟩ : Diskv).files
        (FormatInt 42) = some (.value (str "123e4567-e89b-42d3-a456-426614174000"))
    ∧ writes (handleRotate (fun u => u.Path)
        ⟨fun k => if k = str "42" then
          some (.value (str "123e4567-e89b-42d3-a456-426614174000")) else none⟩
        ⟨str "123e4567-e89b-42d3-a456-426614174000", none, none⟩
        ⟨[], [], none, [], [], [], false, false, [], [], []⟩ ⟨42⟩).trace
        = [(str "42", str "123e4567-e89b-42d3-a456-426614174000")]
    ∧ (handleWebhook (fun _ => .ok ⟨[], [], []⟩) none
        (handleRotate (fun u => u.Path)
          ⟨fun k => if k = str "42" then
            some (.value (str "123e4567-e89b-42d3-a456-426614174000")) else none⟩
          ⟨str "123e4567-e89b-42d3-a456-426614174000", none, none⟩
          ⟨[], [], none, [], [], [], false, false, [], [], []⟩ ⟨42⟩).store
        (webhookRequest (FormatInt 42) (str "123e4567-e89b-42d3-a456-426614174000") [])).reply
        = .written 200 [] := by
  decide

/-- C4: registration is idempotent. For a recipient without a record, after
two runs of handleStart in a row (the first write succeeding) the stored
secret is the one minted by the first run, and the second run writes nothing,
mints nothing and sends nothing (its trace is empty). In general handleStart
for a registered recipient leaves the store unchanged and has an empty trace. -/
theorem C4_registration_idempotent (urlString : URL → GoString) (d : Diskv) (w1 w2 : World)
    (baseURL : URL) (c : Int) (habsent : d.files (FormatInt c) = none)
    (hw : w1.writeErr = none) :
    (handleStart urlString d w1 baseURL ⟨c⟩).store.files (FormatInt c) = some (.value w1.uuid)
    ∧ handleStart urlString (handleStart urlString d w1 baseURL ⟨c⟩).store w2 baseURL ⟨c⟩
        = ⟨(handleStart urlString d w1 baseURL ⟨c⟩).store, []⟩
    ∧ (handleStart urlString (handleStart urlString d w1 baseURL ⟨c⟩).store w2 baseURL
        ⟨c⟩).store.files (FormatInt c) = some (.value w1.uuid)
    ∧ writes (handleStart urlString (handleStart urlString d w1 baseURL ⟨c⟩).store w2 baseURL
        ⟨c⟩).trace = []
    ∧ sends (handleStart urlString (handleStart urlString d w1 baseURL ⟨c⟩).store w2 baseURL
        ⟨c⟩).trace = []
    ∧ (∀ (d0 : Diskv) (w0 : World), d0.Has (FormatInt c) = true →
        handleStart urlString d0 w0 baseURL ⟨c⟩ = ⟨d0, []⟩) := by
  have hst := (handleStart_fresh urlString d w1 baseURL ⟨c⟩ (Has_of_none d _ habsent) hw).1
  have hf : (handleStart urlString d w1 baseURL ⟨c⟩).store.files (FormatInt c)
      = some (.value w1.uuid) := by rw [hst]; exact put_files_self d _ _
  have h2 := handleStart_registered urlString (handleStart urlString d w1 baseURL ⟨c⟩).store w2
    baseURL ⟨c⟩ (Has_of_value _ _ _ hf)
  refine ⟨hf, h2, ?_, ?_, ?_, ?_⟩
  · rw [h2]; exact hf
  · rw [h2]; rfl
  · rw [h2]; rfl
  · intro d0 w0 h0
    exact handleStart_registered urlString d0 w0 baseURL ⟨c⟩ h0

/-- Witness of C4: chat 42 sends the start command twice to the empty store. -/
theorem C4_registration_idempotent_witness :
    (handleStart (fun u => u.Path)
        (handleStart (fun u => u.Path) ⟨fun _ => none⟩ ⟨str "s1", none, none⟩
          ⟨[], [], none, [], [], [], false, false, [], [], []⟩ ⟨42⟩).store
        ⟨str "s2", none, none⟩ ⟨[], [], none, [], [], [], false, false, [], [], []⟩
        ⟨42⟩).store.files (FormatInt 42) = some (.value (str "s1"))
    ∧ writes (handleStart (fun u => u.Path)
        (handleStart (fun u => u.Path) ⟨fun _ => none⟩ ⟨str "s1", none, none⟩
          ⟨[], [], none, [], [], [], false, false, [], [], []⟩ ⟨42⟩).store
        ⟨str "s2", none, none⟩ ⟨[], [], none, [], [], [], false, false, [], [], []⟩
        ⟨42⟩).trace = [] := by
  have h := C4_registration_idempotent (fun u => u.Path) ⟨fun _ => none⟩ ⟨str "s1", none, none⟩
    ⟨str "s2", none, none⟩ ⟨[], [], none, [], [], [], false, false, [], [], []⟩ 42 rfl rfl
  exact ⟨h.2.2.1, h.2.2.2.1⟩

/-- C5, as the code has it: joinURLPath decides on the slash at the seam by
the escaped path of the base URL. For every base URL whose escaped path ends
with `/` exactly when its decoded path does (every base URL with an empty
RawPath is one) and every suffix, the decoded path returned by joinURLPath,
which is the Path of the URL generateURL renders, is the base path and the
suffix with exactly one slash between them: one of two slashes is dropped, a
missing one is inserted, and a single one is kept. -/
theorem C5_one_slash_at_seam (a : URL) (b : GoString)
    (h : a.RawPath = [] ∨ HasSuffix (EscapedPath a) (str "/") = HasSuffix a.Path (str "/")) :
    (HasSuffix a.Path (str "/") = true → hasPrefixStr b (str "/") = true →
        (joinURLPath a b).1 = a.Path ++ b.drop 1)
    ∧ (HasSuffix a.Path (str "/") = false → hasPrefixStr b (str "/") = false →
        (joinURLPath a b).1 = a.Path ++ str "/" ++ b)
    ∧ (HasSuffix a.Path (str "/") ≠ hasPrefixStr b (str "/") → (joinURLPath a b).1 = a.Path ++ b)
    ∧ (generateURLValue a b).Path = (joinURLPath a b).1 := by
  have heq : HasSuffix (EscapedPath a) (str "/") = HasSuffix a.Path (str "/") := by
    rcases h with h | h
    · exact EscapedPath_slash_of_raw_nil a h
    · exact h
  rw [joinURLPath_path a b heq]
  obtain ⟨h1, h2, h3⟩ := singleJoiningSlash_cases a.Path b
  exact ⟨h1, h2, h3, joinURLPath_path a b heq⟩

/-- Witness of C5: the three examples of the specification, with the base
paths ``, `/` and `/x` of a base URL without RawPath. -/
theorem C5_one_slash_at_seam_witness :
    (joinURLPath ⟨str "http", [], none, str "host", [], [], false, false, [], [], []⟩
        (str "/a/b")).1 = str "/a/b"
    ∧ (joinURLPath ⟨str "http", [], none, str "host", str "/", [], false, false, [], [], []⟩
        (str "/a/b")).1 = str "/a/b"
    ∧ (joinURLPath ⟨str "http", [], none, str "host", str "/x", [], false, false, [], [], []⟩
        (str "y")).1 = str "/x/y" := by
  refine ⟨?_, ?_, ?_⟩
  · rw [(C5_one_slash_at_seam ⟨str "http", [], none, str "host", [], [], false, false, [], [], []⟩
      (str "/a/b") (Or.inl rfl)).2.2.1 (by decide)]
    decide
  · rw [(C5_one_slash_at_seam
      ⟨str "http", [], none, str "host", str "/", [], false, false, [], [], []⟩
      (str "/a/b") (Or.inl rfl)).1 (by decide) (by decide)]
    decide
  · rw [(C5_one_slash_at_seam
      ⟨str "http", [], none, str "host", str "/x", [], false, false, [], [], []⟩
      (str "y") (Or.inl rfl)).2.1 (by decide) (by decide)]
    decide

/-- Counterexample to C5 as stated: the base URL `http://host/a%2F` has the
decoded path `/a/` and the RawPath `/a%2F`. The base path ends with `/` and the
suffix `/x` starts with `/`, and no slash is dropped: the joined path is
`/a//x`. -/
theorem C5_encoded_slash_counterexample :
    HasSuffix (str "/a/") (str "/") = true
    ∧ hasPrefixStr (str "/x") (str "/") = true
    ∧ (joinURLPath
        ⟨str "http", [], none, str "host", str "/a/", str "/a%2F", false, false, [], [], []⟩
        (str "/x")).1 = str "/a//x"
    ∧ (joinURLPath
        ⟨str "http", [], none, str "host", str "/a/", str "/a%2F", false, false, [], [], []⟩
        (str "/x")).1 ≠ str "/a/" ++ (str "/x").drop 1 := by
  decide

/-- C6: the webhook handler answers with the first failing check, in the order
recipient parse (400), credential check (403, whatever the body, which is not
read), payload decode (400 with the text of the decoder), and submits no
message to the transport in any of the three outcomes. -/
theorem C6_first_failing_check (decode : GoString → Except GoString Event)
    (sendErr : Option SendError) (d : Diskv) (r : Request) :
    (∀ e, ParseInt (ByName r.params (str "chatID")) = .error e →
      handleWebhook decode sendErr d r = ⟨d, [.httpError [] 400], .written 400 (str "\n")⟩
      ∧ sends (handleWebhook decode sendErr d r).trace = []
      ∧ bodyRead (handleWebhook decode sendErr d r).trace = false)
    ∧ (∀ cid, ParseInt (ByName r.params (str "chatID")) = .ok cid →
        d.ReadString (ByName r.params (str "chatID")) ≠ ByName r.params (str "uuid") →
        ∀ decode2 sendErr2 body2,
          handleWebhook decode2 sendErr2 d { r with body := body2 }
            = ⟨d, [.httpError [] 403], .written 403 (str "\n")⟩
          ∧ sends (handleWebhook decode2 sendErr2 d { r with body := body2 }).trace = []
          ∧ bodyRead (handleWebhook decode2 sendErr2 d { r with body := body2 }).trace = false)
    ∧ (∀ cid err, ParseInt (ByName r.params (str "chatID")) = .ok cid →
        d.ReadString (ByName r.params (str "chatID")) = ByName r.params (str "uuid") →
        decode r.body = .error err →
        handleWebhook decode sendErr d r
            = ⟨d, [.decode r.body, .httpError err 400], .written 400 (err ++ str "\n")⟩
        ∧ sends (handleWebhook decode sendErr d r).trace = []) := by
  refine ⟨?_, ?_, ?_⟩
  · intro e he
    have h : handleWebhook decode sendErr d r
        = ⟨d, [.httpError [] 400], .written 400 (str "\n")⟩ := by
      unfold handleWebhook
      simp only [he]
      rfl
    rw [h]
    exact ⟨rfl, rfl, rfl⟩
  · intro cid hp hs decode2 sendErr2 body2
    have h := handleWebhook_forbidden decode2 sendErr2 d { r with body := body2 } cid hp hs
    rw [h]
    exact ⟨rfl, rfl, rfl⟩
  · intro cid err hp hs hd
    have h : handleWebhook decode sendErr d r
        = ⟨d, [.decode r.body, .httpError err 400], .written 400 (err ++ str "\n")⟩ := by
      unfold handleWebhook
      simp only [hp, hs, ne_eq, not_true_eq_false, if_false, hd]
      rfl
    rw [h]
    exact ⟨rfl, rfl⟩

/-- Witness of C6: an unparsable recipient, a wrong secret for a registered
recipient, and an undecodable body for the right secret. -/
theorem C6_first_failing_check_witness :
    (handleWebhook (fun _ => .error (str "EOF")) none
        ⟨fun k => if k = str "42" then some (.value (str "s1")) else none⟩
        (webhookRequest (str "4x") (str "s1") [])).reply = .written 400 (str "\n")
    ∧ (handleWebhook (fun _ => .error (str "EOF")) none
        ⟨fun k => if k = str "42" then some (.value (str "s1")) else none⟩
        (webhookRequest (str "42") (str "wrong") (str "x"))).reply = .written 403 (str "\n")
    ∧ (handleWebhook (fun _ => .error (str "EOF")) none
        ⟨fun k => if k = str "42" then some (.value (str "s1")) else none⟩
        (webhookRequest (str "42") (str "s1") [])).reply = .written 400 (str "EOF\n") := by
  refine ⟨?_, ?_, ?_⟩
  · have h := (C6_first_failing_check (fun _ => .error (str "EOF")) none
      ⟨fun k => if k = str "42" then some (.value (str "s1")) else none⟩
      (webhookRequest (str "4x") (str "s1") [])).1 .ErrSyntax (by decide)
    rw [h.1]
  · have h := (C6_first_failing_check (fun _ => .error (str "EOF")) none
      ⟨fun k => if k = str "42" then some (.value (str "s1")) else none⟩
      (webhookRequest (str "42") (str "wrong") [])).2.1 42 (by decide) (by decide)
      (fun _ => .error (str "EOF")) none (str "x")
    exact congrArg HttpOutcome.reply h.1
  · have h := (C6_first_failing_check (fun _ => .error (str "EOF")) none
      ⟨fun k => if k = str "42" then some (.value (str "s1")) else none⟩
      (webhookRequest (str "42") (str "s1") [])).2.2 42 (str "EOF") (by decide) (by decide) rfl
    rw [h.1]
    decide

/-- C7: an issued callback URL is accepted and reaches its own recipient. For
an int64 chat id `c` without a record, when handleStart writes the minted UUID
`u`, the path suffix it hands to generateURL is `/api/v1/webhook/` followed by
the decimal form of `c`, `/` and `u`; the URL in the message it sends is the
rendering of the base URL with the joined path and escaped path in place of
its own, and that joined path is the base path (less its trailing slash, if
any) followed by the suffix. The router hands a POST to that suffix to
handleWebhook with the parameters `chatID` = decimal form of `c` and `uuid` =
`u`, and that request, run against the resulting store, passes the recipient
parse and the credential check; with a decodable body and an accepting
transport exactly one message is submitted, to chat `c`, and the answer is
200. -/
theorem C7_issued_url_accepted (urlString : URL → GoString)
    (decode : GoString → Except GoString Event) (sendErr : Option SendError)
    (d : Diskv) (w : World) (baseURL : URL) (c : Int) (body : GoString)
    (hlo : -2 ^ 63 ≤ c) (hhi : c < 2 ^ 63) (hu : isUUID w.uuid = true)
    (habsent : d.files (FormatInt c) = none) (hw : w.writeErr = none) :
    Join [webhookEndpoint, FormatInt c, w.uuid]
        = str "/api/v1/webhook/" ++ FormatInt c ++ str "/" ++ w.uuid
    ∧ writes (handleStart urlString d w baseURL ⟨c⟩).trace = [(FormatInt c, w.uuid)]
    ∧ sends (handleStart urlString d w baseURL ⟨c⟩).trace
        = [(c, str "Your webhook URL is:\n["
            ++ escapeTelegam (urlString { baseURL with
                Path := (joinURLPath baseURL
                  (str "/api/v1/webhook/" ++ FormatInt c ++ str "/" ++ w.uuid)).1,
                RawPath := (joinURLPath baseURL
                  (str "/api/v1/webhook/" ++ FormatInt c ++ str "/" ++ w.uuid)).2 })
            ++ str "](" ++ urlString { baseURL with
                Path := (joinURLPath baseURL
                  (str "/api/v1/webhook/" ++ FormatInt c ++ str "/" ++ w.uuid)).1,
                RawPath := (joinURLPath baseURL
                  (str "/api/v1/webhook/" ++ FormatInt c ++ str "/" ++ w.uuid)).2 }
            ++ str ")")]
    ∧ (∃ pre, (joinURLPath baseURL
            (str "/api/v1/webhook/" ++ FormatInt c ++ str "/" ++ w.uuid)).1
          = pre ++ (str "/api/v1/webhook/" ++ FormatInt c ++ str "/" ++ w.uuid)
        ∧ (pre = baseURL.Path ∨ pre ++ str "/" = baseURL.Path))
    ∧ ServeHTTP decode sendErr (handleStart urlString d w baseURL ⟨c⟩).store (str "POST")
          (str "/api/v1/webhook/" ++ FormatInt c ++ str "/" ++ w.uuid) body
        = some (handleWebhook decode sendErr (handleStart urlString d w baseURL ⟨c⟩).store
            (webhookRequest (FormatInt c) w.uuid body))
    ∧ ParseInt (ByName (webhookRequest (FormatInt c) w.uuid body).params (str "chatID")) = .ok c
    ∧ bodyRead (handleWebhook decode sendErr (handleStart urlString d w baseURL ⟨c⟩).store
          (webhookRequest (FormatInt c) w.uuid body)).trace = true
    ∧ (∀ e, decode body = .ok e → sendErr = none →
        sends (handleWebhook decode sendErr (handleStart urlString d w baseURL ⟨c⟩).store
          (webhookRequest (FormatInt c) w.uuid body)).trace = [(c, escapeTelegam (eventText e))]
        ∧ (handleWebhook decode sendErr (handleStart urlString d w baseURL ⟨c⟩).store
          (webhookRequest (FormatInt c) w.uuid body)).reply = .written 200 []) := by
  have hplain := isUUID_plain _ hu
  have hjoin := Join_webhook (FormatInt c) w.uuid (FormatInt_plain c) hplain
  obtain ⟨hst, hwr, hsend⟩ :=
    handleStart_fresh urlString d w baseURL ⟨c⟩ (Has_of_none d _ habsent) hw
  have hf : (handleStart urlString d w baseURL ⟨c⟩).store.files (FormatInt c)
      = some (.value w.uuid) := by rw [hst]; exact put_files_self d _ _
  have hparse : ParseInt (ByName (webhookRequest (FormatInt c) w.uuid body).params
      (str "chatID")) = .ok c := by rw [ByName_chatID]; exact ParseInt_FormatInt c hlo hhi
  have hread : (handleStart urlString d w baseURL ⟨c⟩).store.ReadString
      (ByName (webhookRequest (FormatInt c) w.uuid body).params (str "chatID"))
      = ByName (webhookRequest (FormatInt c) w.uuid body).params (str "uuid") := by
    rw [ByName_chatID, ByName_uuid]; exact ReadString_value _ _ _ hf
  obtain ⟨hpass, hok⟩ := handleWebhook_passed decode sendErr
    (handleStart urlString d w baseURL ⟨c⟩).store
    (webhookRequest (FormatInt c) w.uuid body) c hparse hread
  refine ⟨hjoin, hwr, ?_, ?_, ?_, hparse, hpass, ?_⟩
  · rw [hsend, hjoin]
    rfl
  · exact joinURLPath_base_suffix baseURL _ (by
      rw [hasPrefixStr_slash]
      exact ⟨str "api/v1/webhook/" ++ FormatInt c ++ str "/" ++ w.uuid, rfl⟩)
  · unfold ServeHTTP
    rw [if_pos rfl, lookupWebhook_build (FormatInt c) w.uuid (FormatInt_no_slash c),
      if_pos ⟨hplain.1, hplain.2.1⟩]
    rfl
  · intro e he hs
    rw [hok e he hs]
    exact ⟨rfl, rfl⟩

/-- Witness of C7: chat 42 registers at `http://host/hook/` and receives the
secret `123e4567-e89b-42d3-a456-426614174000`; the URL is rendered as scheme,
`://`, host and path. -/
theorem C7_issued_url_accepted_witness :
    sends (handleStart (fun u => u.Scheme ++ str "://" ++ u.Host ++ u.Path) ⟨fun _ => none⟩
        ⟨str "123e4567-e89b-42d3-a456-426614174000", none, none⟩
        ⟨str "http", [], none, str "host", str "/hook/", [], false, false, [], [], []⟩
        ⟨42⟩).trace
      = [(42, str ("Your webhook URL is:\n"
          ++ "[http://host/hook/api/v1/webhook/42/123e4567\\-e89b\\-42d3\\-a456\\-426614174000]"
          ++ "(http://host/hook/api/v1/webhook/42/123e4567-e89b-42d3-a456-426614174000)"))]
    ∧ sends (handleWebhook (fun _ => .ok ⟨str "info", str "flux", str "ok"⟩) none
        (handleStart (fun u => u.Scheme ++ str "://" ++ u.Host ++ u.Path) ⟨fun _ => none⟩
          ⟨str "123e4567-e89b-42d3-a456-426614174000", none, none⟩
          ⟨str "http", [], none, str "host", str "/hook/", [], false, false, [], [], []⟩
          ⟨42⟩).store
        (webhookRequest (FormatInt 42) (str "123e4567-e89b-42d3-a456-426614174000")
          (str "body"))).trace
      = [(42, str "Severity: *info*\nInstance: *flux*\nMessage:\n```\nok\n```")] := by
  have h := C7_issued_url_accepted (fun u => u.Scheme ++ str "://" ++ u.Host ++ u.Path)
    (fun _ => .ok ⟨str "info", str "flux", str "ok"⟩) none ⟨fun _ => none⟩
    ⟨str "123e4567-e89b-42d3-a456-426614174000", none, none⟩
    ⟨str "http", [], none, str "host", str "/hook/", [], false, false, [], [], []⟩ 42
    (str "body") (by decide) (by decide) (by decide) rfl rfl
  refine ⟨?_, ?_⟩
  · rw [h.2.2.1]
    set_option maxRecDepth 100000 in decide
  · rw [(h.2.2.2.2.2.2.2 _ rfl rfl).1]; decide

/-- C8: when the base URL carries a percent-encoded path (RawPath not empty
and a valid encoding of Path) and the suffix has no `%`, the escaped path
returned by joinURLPath is the RawPath of the base URL, unchanged, joined to
the suffix with exactly one slash at the seam, and decoding it gives exactly
the decoded path that is returned with it. -/
theorem C8_escaped_path_consistent (a : URL) (b : GoString)
    (hraw : a.RawPath ≠ []) (hvalid : validEncoded a.RawPath = true)
    (henc : unescape a.RawPath = some a.Path) (hb : (37 : Byte) ∉ b) :
    (HasSuffix a.RawPath (str "/") = true → hasPrefixStr b (str "/") = true →
        (joinURLPath a b).2 = a.RawPath ++ b.drop 1)
    ∧ (HasSuffix a.RawPath (str "/") = false → hasPrefixStr b (str "/") = false →
        (joinURLPath a b).2 = a.RawPath ++ str "/" ++ b)
    ∧ (HasSuffix a.RawPath (str "/") ≠ hasPrefixStr b (str "/") →
        (joinURLPath a b).2 = a.RawPath ++ b)
    ∧ unescape (joinURLPath a b).2 = some (joinURLPath a b).1 := by
  have hE : EscapedPath a = a.RawPath := by
    unfold EscapedPath
    rw [if_pos ⟨hraw, hvalid, henc⟩]
  have hj : joinURLPath a b
      = if (HasSuffix a.RawPath (str "/") && hasPrefixStr b (str "/")) = true then
          (a.Path ++ b.drop 1, a.RawPath ++ b.drop 1)
        else if (!HasSuffix a.RawPath (str "/") && !hasPrefixStr b (str "/")) = true then
          (a.Path ++ str "/" ++ b, a.RawPath ++ str "/" ++ b)
        else (a.Path ++ b, a.RawPath ++ b) := by
    unfold joinURLPath
    rw [if_neg (fun h => hraw h.1), hE]
  have hb1 : (37 : Byte) ∉ b.drop 1 := fun h => hb (List.mem_of_mem_drop h)
  have hb2 : (37 : Byte) ∉ str "/" ++ b := by
    intro h
    rcases List.mem_append.mp h with h | h
    · exact absurd h (by decide)
    · exact hb h
  rw [hj]
  refine ⟨?_, ?_, ?_, ?_⟩
  · intro h1 h2; simp [h1, h2]
  · intro h1 h2; simp [h1, h2]
  · intro h
    cases h1 : HasSuffix a.RawPath (str "/") <;> cases h2 : hasPrefixStr b (str "/") <;>
      simp_all
  · split
    · exact unescape_append _ _ hb1 _ henc
    · split
      · simp only [List.append_assoc]
        exact unescape_append _ _ hb2 _ henc
      · exact unescape_append _ _ hb _ henc

/-- Witness of C8: the base URL `http://host/a%2Fb/` and the suffix `/x`. -/
theorem C8_escaped_path_consistent_witness :
    (joinURLPath
        ⟨str "http", [], none, str "host", str "/a/b/", str "/a%2Fb/", false, false, [], [], []⟩
        (str "/x")).2 = str "/a%2Fb/x"
    ∧ unescape (joinURLPath
        ⟨str "http", [], none, str "host", str "/a/b/", str "/a%2Fb/", false, false, [], [], []⟩
        (str "/x")).2 = some (str "/a/b/x") := by
  have h := C8_escaped_path_consistent
    ⟨str "http", [], none, str "host", str "/a/b/", str "/a%2Fb/", false, false, [], [], []⟩
    (str "/x") (by decide) (by decide) (by decide) (by decide)
  refine ⟨?_, ?_⟩
  · rw [h.1 (by decide) (by decide)]; decide
  · rw [h.2.2.2]; decide

/-- C9: escapeTelegam puts one backslash in front of each `.` and each `-` and
keeps every other byte, in order; the result is longer than `u` by the number
of `.` and `-` in `u`, and deleting the inserted backslashes gives `u` back.
In the message texts of handleStart and handleRotate only the display copy of
the generated URL between the square brackets is escaped: the hyperlink target
between the parentheses is the URL itself. -/
theorem C9_escape_display_copy_only (urlString : URL → GoString) (d : Diskv) (w : World)
    (baseURL : URL) (c : Int) (u : GoString) :
    escapeTelegam u = insertBackslashes u
    ∧ (escapeTelegam u).length = u.length + u.countP (fun b => b = 46 ∨ b = 45)
    ∧ dropBackslashes (escapeTelegam u) = u
    ∧ (d.files (FormatInt c) = none → w.writeErr = none →
        sends (handleStart urlString d w baseURL ⟨c⟩).trace
          = [(c, str "Your webhook URL is:\n" ++ (str "["
              ++ escapeTelegam (generateURL urlString baseURL
                  (Join [webhookEndpoint, FormatInt c, w.uuid]))
              ++ str "](" ++ generateURL urlString baseURL
                  (Join [webhookEndpoint, FormatInt c, w.uuid]) ++ str ")"))])
    ∧ (d.files (FormatInt c) ≠ none → w.writeErr = none →
        sends (handleRotate urlString d w baseURL ⟨c⟩).trace
          = [(c, str "Your new webhook URL is:\n" ++ (str "["
              ++ escapeTelegam (generateURL urlString baseURL
                  (Join [webhookEndpoint, FormatInt c, w.uuid]))
              ++ str "](" ++ generateURL urlString baseURL
                  (Join [webhookEndpoint, FormatInt c, w.uuid]) ++ str ")"))]) := by
  refine ⟨escapeTelegam_eq u, ?_, ?_, ?_, ?_⟩
  · rw [escapeTelegam_eq]; exact insertBackslashes_length u
  · rw [escapeTelegam_eq]; exact dropBackslashes_insert u
  · intro habs hw
    rw [(handleStart_fresh urlString d w baseURL ⟨c⟩ (Has_of_none d _ habs) hw).2.2]
    simp only [List.append_assoc]
    rfl
  · intro hreg hw
    have hhas : d.Has (FormatInt c) = true := by
      cases hf : d.files (FormatInt c) with
      | none => exact absurd hf hreg
      | some e => exact Has_of_value d _ e hf
    rw [(handleRotate_registered urlString d w baseURL ⟨c⟩ hhas hw).2.2]
    simp only [List.append_assoc]
    rfl

/-- Witness of C9: chat 42 registers at the base URL with the path `/x.y`. -/
theorem C9_escape_display_copy_only_witness :
    escapeTelegam (str "a.b-c") = str "a\\.b\\-c"
    ∧ sends (handleStart (fun u => u.Path) ⟨fun _ => none⟩ ⟨str "s-1", none, none⟩
        ⟨[], [], none, [], str "/x.y", [], false, false, [], [], []⟩ ⟨42⟩).trace
      = [(42, str "Your webhook URL is:\n[/x\\.y/api/v1/webhook/42/s\\-1](/x.y/api/v1/webhook/42/s-1)")] := by
  have h := C9_escape_display_copy_only (fun u => u.Path) ⟨fun _ => none⟩
    ⟨str "s-1", none, none⟩ ⟨[], [], none, [], str "/x.y", [], false, false, [], [], []⟩ 42
    (str "a.b-c")
  refine ⟨?_, ?_⟩
  · rw [h.1]; decide
  · rw [h.2.2.2.1 rfl rfl]; decide

/-- C10: credential records are created only by registration and never
removed. A run of handleStart or handleRotate for recipient `c` deletes no
record and neither adds nor changes the record of another key; handleRotate
creates no record at all, and for an unregistered recipient it writes nothing,
leaves the store unchanged and sends only the not-yet-initialized notice;
handleWebhook never writes to the store. So a new key appears only through
handleStart, under the decimal id of its own chat. -/
theorem C10_records_only_created (urlString : URL → GoString)
    (decode : GoString → Except GoString Event) (sendErr : Option SendError)
    (d : Diskv) (w : World) (baseURL : URL) (c : Int) (r : Request) :
    ((∀ k, d.files k ≠ none → (handleStart urlString d w baseURL ⟨c⟩).store.files k ≠ none)
      ∧ (∀ k, k ≠ FormatInt c → (handleStart urlString d w baseURL ⟨c⟩).store.files k = d.files k)
      ∧ (∀ k, d.files k = none → (handleStart urlString d w baseURL ⟨c⟩).store.files k ≠ none →
          k = FormatInt c))
    ∧ ((∀ k, d.files k ≠ none → (handleRotate urlString d w baseURL ⟨c⟩).store.files k ≠ none)
      ∧ (∀ k, k ≠ FormatInt c →
          (handleRotate urlString d w baseURL ⟨c⟩).store.files k = d.files k)
      ∧ (∀ k, d.files k = none → (handleRotate urlString d w baseURL ⟨c⟩).store.files k = none))
    ∧ (d.files (FormatInt c) = none →
        (handleRotate urlString d w baseURL ⟨c⟩).store = d
        ∧ writes (handleRotate urlString d w baseURL ⟨c⟩).trace = []
        ∧ sends (handleRotate urlString d w baseURL ⟨c⟩).trace
          = [(c, escapeTelegam
              (str "This chat is not yet initialized. Send /start to start receiving updates."))])
    ∧ ((handleWebhook decode sendErr d r).store = d
      ∧ writes (handleWebhook decode sendErr d r).trace = []) := by
  refine ⟨⟨?_, ?_, ?_⟩, ⟨?_, ?_, ?_⟩, ?_, handleWebhook_store decode sendErr d r⟩
  · intro k hk
    rcases handleStart_store urlString d w baseURL ⟨c⟩ with h | ⟨h, _⟩
    · rw [h]; exact hk
    · rw [h]; exact put_keeps d _ _ k hk
  · intro k hk
    rcases handleStart_store urlString d w baseURL ⟨c⟩ with h | ⟨h, _⟩
    · rw [h]
    · rw [h]; exact put_files_other d _ _ k hk
  · intro k hk hk2
    by_contra hne
    rcases handleStart_store urlString d w baseURL ⟨c⟩ with h | ⟨h, _⟩
    · rw [h] at hk2; exact hk2 hk
    · rw [h, put_files_other d _ _ k hne] at hk2; exact hk2 hk
  · intro k hk
    rcases handleRotate_store urlString d w baseURL ⟨c⟩ with h | ⟨h, _⟩
    · rw [h]; exact hk
    · rw [h]; exact put_keeps d _ _ k hk
  · intro k hk
    rcases handleRotate_store urlString d w baseURL ⟨c⟩ with h | ⟨h, _⟩
    · rw [h]
    · rw [h]; exact put_files_other d _ _ k hk
  · intro k hk
    rcases handleRotate_store urlString d w baseURL ⟨c⟩ with h | ⟨h, hhas⟩
    · rw [h]; exact hk
    · have hne : k ≠ FormatInt c := by
        intro e
        rw [e] at hk
        rw [Has_of_none d _ hk] at hhas
        exact absurd hhas (by decide)
      rw [h, put_files_other d _ _ k hne]; exact hk
  · intro habs
    exact handleRotate_unregistered urlString d w baseURL ⟨c⟩ (Has_of_none d _ habs)

/-- Witness of C10: chat 7 sends the rotate command to a store that holds a
record of chat 42 only. -/
theorem C10_records_only_created_witness :
    (handleRotate (fun u => u.Path)
        ⟨fun k => if k = str "42" then some (.value (str "s1")) else none⟩
        ⟨str "s2", none, none⟩ ⟨[], [], none, [], [], [], false, false, [], [], []⟩ ⟨7⟩).store
      = ⟨fun k => if k = str "42" then some (.value (str "s1")) else none⟩
    ∧ writes (handleRotate (fun u => u.Path)
        ⟨fun k => if k = str "42" then some (.value (str "s1")) else none⟩
        ⟨str "s2", none, none⟩ ⟨[], [], none, [], [], [], false, false, [], [], []⟩ ⟨7⟩).trace
      = [] := by
  have h := (C10_records_only_created (fun u => u.Path) (fun _ => .ok ⟨[], [], []⟩) none
    ⟨fun k => if k = str "42" then some (.value (str "s1")) else none⟩
    ⟨str "s2", none, none⟩ ⟨[], [], none, [], [], [], false, false, [], [], []⟩ 7
    (webhookRequest [] [] [])).2.2.1 (by decide)
  exact ⟨h.1, h.2.1⟩

end Fluxcdbot
